import Mathlib

/-!
Verification of the billing/payment-orchestration service.

The invoice service (src/services/invoice.rs), the event payload model
(src/models/event.rs) and the webhook callback model (src/models/account.rs)
are embedded shallowly below.  Database repositories and the pricing engine
(repos/*, models/invoice_v2.rs, models/amount.rs, models/currency.rs) are not
part of the delivered sources; they are modelled from the specification and
each such definition is marked in its doc comment.

Conventions of the embedding:
* entity identifiers (UUIDs, addresses, payment-intent ids, raw header/body
  bytes) are represented by natural numbers;
* `Amount` (an unsigned big integer in minor units) is represented by `Nat`;
* `BigDecimal` (exact decimal arithmetic) is represented by `Rat`;
* stateful code is explicit state passing on a `Db` value: an operation has
  type `Db → Except ErrorKind A × Db`; failures that happen after some writes
  keep those writes, and SQL transactions are expressed by the `transaction`
  combinator which restores the entry state on failure;
* secp256k1 signature verification is an abstract boolean-valued oracle
  (`Crypto.verify`): the embedding tracks exactly how the service reacts to
  a verification verdict, not the cryptography itself.
-/

namespace Billing

/-- Currencies known to the service (`models/currency.rs` is not in the
delivered sources; the constructors are the fiat currencies EUR/USD and the
crypto currencies STQ/ETH/BTC used throughout the code and the spec). -/
inductive Currency
  | eur
  | usd
  | stq
  | eth
  | btc
deriving DecidableEq, Repr

/-- `Currency::is_fiat`. Modelled from the spec: buyer/seller currencies are
classified as fiat or crypto. -/
def Currency.is_fiat : Currency → Bool
  | Currency.eur => true
  | Currency.usd => true
  | _ => false

/-- Minor-unit scale of a currency. Modelled from the spec: amounts are wei
(10^18) for ETH/STQ, satoshi (10^8) for BTC, cents (10^2) for fiat. -/
def Currency.decimals : Currency → Nat
  | Currency.eur => 2
  | Currency.usd => 2
  | Currency.btc => 8
  | Currency.eth => 18
  | Currency.stq => 18

abbrev InvoiceId := Nat
abbrev OrderId := Nat
abbrev AccountId := Nat
abbrev TransactionId := Nat
abbrev StoreId := Nat
abbrev PayoutId := Nat
abbrev ExchangeId := Nat
abbrev WalletAddress := Nat
abbrev PaymentIntentId := Nat
abbrev UserId := Nat

/-- `Amount` (models/amount.rs, not in the delivered sources). Modelled from
the spec: an unsigned big integer in the currency's minor unit. -/
abbrev Amount := Nat

/-- Exact rational addition, written through `mkRat` so that concrete values
compute by kernel reduction (it agrees with `Rat.add` by `Rat.add_def'`). -/
def ratAdd (a b : Rat) : Rat :=
  mkRat (a.num * b.den + b.num * a.den) (a.den * b.den)

/-- Exact rational multiplication through `mkRat` (it agrees with `Rat.mul`
by `Rat.mul_def`). -/
def ratMul (a b : Rat) : Rat :=
  mkRat (a.num * b.num) (a.den * b.den)

/-- Exact rational division through `mkRat` (division by zero yields zero,
as for `Rat.div`). -/
def ratDiv (a b : Rat) : Rat :=
  mkRat (a.num * b.den * Int.sign b.num) (b.num.natAbs * a.den)

/-- Sum of a list of rationals (the BigDecimal fold used by the service). -/
def ratSum (l : List Rat) : Rat :=
  l.foldl ratAdd 0

/-- `Amount::to_super_unit`. Modelled from the spec: divide the minor-unit
integer by the currency's scale, exactly. -/
def toSuperUnit (c : Currency) (a : Amount) : Rat :=
  mkRat a (10 ^ c.decimals)

/-- Round a rational to an integer, half to even: with `f = ⌊q⌋`, compare
the fractional part `q - f` against one half by comparing
`2 * (num - f * den)` against `den`. -/
def roundHalfEven (q : Rat) : Int :=
  let f : Int := q.floor
  let r2 : Int := 2 * (q.num - f * (q.den : Int))
  if r2 < (q.den : Int) then f
  else if (q.den : Int) < r2 then f + 1
  else if f % 2 = 0 then f else f + 1

/-- `Amount::from_super_unit`. Modelled from the spec: scale the super-unit
value by the currency's minor-unit factor and round half to even. -/
def fromSuperUnit (c : Currency) (q : Rat) : Amount :=
  (roundHalfEven (ratMul q (mkRat (10 ^ c.decimals) 1))).toNat

/-- Payment state of an order (src/models/order_v2.rs; the full constructor
list lives outside the delivered sources, the claims only carry it along). -/
inductive PaymentState
  | initial
  | captured
  | refunded
deriving DecidableEq, Repr

/-- `RawOrder` (src/models/order_v2.rs). -/
structure RawOrder where
  id : OrderId
  seller_currency : Currency
  total_amount : Amount
  cashback_amount : Amount
  invoice_id : InvoiceId
  created_at : Nat
  updated_at : Nat
  store_id : StoreId
  state : PaymentState
  stripe_fee : Option Amount
deriving DecidableEq, Repr

/-- `NewOrder` (src/models/order_v2.rs). -/
structure NewOrder where
  id : OrderId
  seller_currency : Currency
  total_amount : Amount
  cashback_amount : Amount
  invoice_id : InvoiceId
  store_id : StoreId
deriving DecidableEq, Repr

/-- `RawInvoice` (models/invoice_v2.rs, not in the delivered sources).
Modelled from the spec: id, buyer_user_id, buyer_currency, amount_captured,
optional account_id, and the three paid fields that become non-null
atomically. -/
structure RawInvoice where
  id : InvoiceId
  buyer_user_id : UserId
  buyer_currency : Currency
  amount_captured : Amount
  account_id : Option AccountId
  final_amount_paid : Option Amount
  final_cashback_amount : Option Amount
  paid_at : Option Nat
deriving DecidableEq, Repr

/-- `InvoiceSetAmountPaid` (models/invoice_v2.rs, not in the delivered
sources). Modelled from the spec: the three values set when an invoice is
recognized as paid. -/
structure InvoiceSetAmountPaid where
  final_amount_paid : Amount
  final_cashback_amount : Amount
  paid_at : Nat
deriving DecidableEq, Repr

/-- Status of an order exchange rate row. Modelled from the spec:
`status ∈ {Active, Expired}`. -/
inductive ExchangeRateStatus
  | active
  | expired
deriving DecidableEq, Repr

/-- `RawOrderExchangeRate` (models/order_exchange_rate.rs, not in the
delivered sources). Modelled from the spec: versioned rate rows with an
optional exchange_id (absent ⇒ dummy 1:1 rate) and a BigDecimal rate. -/
structure RawOrderExchangeRate where
  id : Nat
  order_id : OrderId
  exchange_id : Option ExchangeId
  exchange_rate : Rat
  status : ExchangeRateStatus
deriving DecidableEq, Repr

/-- `NewOrderExchangeRate` (models/order_exchange_rate.rs, not in the
delivered sources). Modelled from the spec. -/
structure NewOrderExchangeRate where
  order_id : OrderId
  exchange_id : Option ExchangeId
  exchange_rate : Rat
deriving DecidableEq, Repr

/-- `RawAccount` (src/models/account.rs). -/
structure RawAccount where
  id : AccountId
  currency : Currency
  is_pooled : Bool
  created_at : Nat
  wallet_address : WalletAddress
deriving DecidableEq, Repr

/-- `PaymentsCallback` (src/models/account.rs): the parsed inbound crypto
webhook. `amount_captured` is a decimal string in the source; it is modelled
as `Option Nat`: `some n` when it parses as an unsigned big integer in minor
units, `none` when malformed. -/
structure PaymentsCallback where
  transaction_id : TransactionId
  account_id : Option AccountId
  amount_captured : Option Nat
  address : WalletAddress
  currency : Currency
deriving DecidableEq, Repr

/-- Status set of a card-PSP payment intent (external `stripe` crate). -/
inductive PaymentIntentStatus
  | requiresSource
  | processing
  | succeeded
  | canceled
deriving DecidableEq, Repr

/-- `stripe::PaymentIntent` (external crate), as far as the billing service
stores it (src/services/invoice.rs, `new_payment_intent`): id plus the
mutable amounts/status fields. -/
structure PaymentIntent where
  id : PaymentIntentId
  amount : Amount
  amount_received : Amount
  currency : Currency
  status : PaymentIntentStatus
  charge_id : Option Nat
deriving DecidableEq, Repr

/-- `NewPaymentIntent` row (models, not in the delivered sources). Modelled
from the spec: id (external), amount, amount_received, currency, status,
charge_id. -/
structure NewPaymentIntent where
  id : PaymentIntentId
  amount : Amount
  amount_received : Amount
  currency : Currency
  status : PaymentIntentStatus
  charge_id : Option Nat
deriving DecidableEq, Repr

/-- `NewPaymentIntentInvoice` link row (models, not in the delivered
sources). Modelled from the spec: exactly one PaymentIntent↔Invoice link
through a join entity. -/
structure NewPaymentIntentInvoice where
  invoice_id : InvoiceId
  payment_intent_id : PaymentIntentId
deriving DecidableEq, Repr

/-- `EventPayload` (src/models/event.rs). The three PaymentIntent webhook
variants carry the full `stripe::PaymentIntent` value. -/
inductive EventPayload
  | noOp
  | invoicePaid (invoice_id : InvoiceId)
  | paymentIntentPaymentFailed (payment_intent : PaymentIntent)
  | paymentIntentAmountCapturableUpdated (payment_intent : PaymentIntent)
  | paymentIntentSucceeded (payment_intent : PaymentIntent)
  | paymentIntentCapture (order_id : OrderId)
  | paymentExpired (invoice_id : InvoiceId)
  | payoutInitiated (payout_id : PayoutId)
deriving DecidableEq, Repr

/-- A durable event-journal row (models/event_store.rs, not in the delivered
sources). Modelled from the spec: payload plus nullable scheduled_for; the
random `EventId` and the queue-status fields play no role in the claims. -/
structure EventEntry where
  payload : EventPayload
  scheduled_for : Option Nat
deriving DecidableEq, Repr

/-- Error taxonomy (src/services/error.rs and repos/error.rs are outside the
delivered sources; the kinds are modelled from the spec's §7 taxonomy, with
`constraints` standing for the repo-level AlreadyApplied/unique-constraint
error that `handle_inbound_tx` matches on). -/
inductive ErrorKind
  | notFound
  | forbidden
  | internal
  | validation (buyer_currency seller_currency : Currency)
  | constraints
deriving DecidableEq, Repr

/-- The ledger store state: one field per logical table, plus the id counter
used for new rate rows. -/
structure Db where
  invoices : List RawInvoice
  orders : List RawOrder
  rates : List RawOrderExchangeRate
  accounts : List RawAccount
  applied_txs : List (AccountId × TransactionId)
  payment_intents : List NewPaymentIntent
  payment_intent_invoices : List NewPaymentIntentInvoice
  events : List EventEntry
  next_rate_id : Nat
deriving DecidableEq, Repr

deriving instance DecidableEq for Except

/-- Result type of a stateful operation: the verdict plus the state after
the operation (writes performed before a failure persist). -/
abbrev DbRes (A : Type) := Except ErrorKind A × Db

/-- SQL transaction: on failure the entry state is restored (rollback). -/
def transaction {A : Type} (m : Db → DbRes A) (s : Db) : DbRes A :=
  match m s with
  | (Except.ok a, s1) => (Except.ok a, s1)
  | (Except.error e, _) => (Except.error e, s)

/-- `InvoicesV2Repo::get` (repos/invoices_v2.rs, not in the delivered
sources). Modelled from the spec: find-by-id. -/
def invoicesGet (s : Db) (id : InvoiceId) : Option RawInvoice :=
  s.invoices.find? (fun i => i.id == id)

/-- `InvoicesV2Repo::get_by_account_id` (repos/invoices_v2.rs, not in the
delivered sources). Modelled from the spec: `get_invoice_by_account_id`. -/
def invoicesGetByAccountId (s : Db) (aid : AccountId) : Option RawInvoice :=
  s.invoices.find? (fun i => i.account_id == some aid)

/-- `AccountsRepo::get` (repos/accounts.rs, not in the delivered sources).
Modelled from the spec: find-by-id. -/
def accountsGet (s : Db) (aid : AccountId) : Option RawAccount :=
  s.accounts.find? (fun a => a.id == aid)

/-- `AccountsRepo::get_by_wallet_address` (repos/accounts.rs, not in the
delivered sources). Modelled from the spec: `wallet_address` is unique. -/
def accountsGetByWalletAddress (s : Db) (w : WalletAddress) : Option RawAccount :=
  s.accounts.find? (fun a => a.wallet_address == w)

/-- `OrdersRepo::get_many_by_invoice_id` (repos/orders.rs, not in the
delivered sources). Modelled from the spec: `get_orders_by_invoice`. -/
def ordersGetManyByInvoiceId (s : Db) (id : InvoiceId) : List RawOrder :=
  s.orders.filter (fun o => o.invoice_id == id)

/-- `OrderExchangeRatesRepo::get_active_rate_for_order` (repos/
order_exchange_rates.rs, not in the delivered sources). Modelled from the
spec: at most one Active rate per order. -/
def ratesGetActiveForOrder (s : Db) (oid : OrderId) : Option RawOrderExchangeRate :=
  s.rates.find? (fun r => r.order_id == oid && r.status == ExchangeRateStatus.active)

/-- `OrderExchangeRatesRepo::get_all_rates_for_order` (repos/
order_exchange_rates.rs, not in the delivered sources). Modelled from the
spec; rate rows are kept newest first. -/
def ratesGetAllForOrder (s : Db) (oid : OrderId) : List RawOrderExchangeRate :=
  s.rates.filter (fun r => r.order_id == oid)

/-- `OrderExchangeRatesRepo::add_new_active_rate` (repos/
order_exchange_rates.rs, not in the delivered sources). Modelled from the
spec: adding a new Active rate atomically expires the current one. The new
row is put in front so that the per-order rate lists stay newest first. -/
def addNewActiveRate (nr : NewOrderExchangeRate) (s : Db) : RawOrderExchangeRate × Db :=
  let row : RawOrderExchangeRate :=
    { id := s.next_rate_id
      order_id := nr.order_id
      exchange_id := nr.exchange_id
      exchange_rate := nr.exchange_rate
      status := ExchangeRateStatus.active }
  let expired := s.rates.map (fun r =>
    if r.order_id == nr.order_id then { r with status := ExchangeRateStatus.expired } else r)
  (row, { s with rates := row :: expired, next_rate_id := s.next_rate_id + 1 })

/-- The row transformation applied by a successful
`increase_amount_captured`: credit the matching invoice row. -/
def incSetF (invid : InvoiceId) (amt : Amount) : RawInvoice → RawInvoice := fun i =>
  if i.id == invid then { i with amount_captured := i.amount_captured + amt } else i

/-- `InvoicesV2Repo::increase_amount_captured` (repos/invoices_v2.rs, not in
the delivered sources). Modelled from the spec: idempotent — fails with the
AlreadyApplied constraint error if `(account_id, transaction_id)` already
exists; on success atomically adds the delta to the linked invoice's
`amount_captured` and returns the updated invoice row. -/
def increaseAmountCaptured (aid : AccountId) (tx : TransactionId) (amt : Amount)
    (s : Db) : DbRes RawInvoice :=
  if (aid, tx) ∈ s.applied_txs then (Except.error ErrorKind.constraints, s)
  else
    match invoicesGetByAccountId s aid with
    | none => (Except.error ErrorKind.internal, s)
    | some inv =>
      (Except.ok { inv with amount_captured := inv.amount_captured + amt },
        { s with
          invoices := s.invoices.map (incSetF inv.id amt)
          applied_txs := (aid, tx) :: s.applied_txs })

/-- The row transformation applied by `set_amount_paid`: freeze the final
amounts of the matching not-yet-paid invoice row. -/
def paidSetF (id : InvoiceId) (input : InvoiceSetAmountPaid) : RawInvoice → RawInvoice :=
  fun i =>
    if i.id == id && i.paid_at.isNone then
      { i with
        final_amount_paid := some input.final_amount_paid
        final_cashback_amount := some input.final_cashback_amount
        paid_at := some input.paid_at }
    else i

/-- `InvoicesV2Repo::set_amount_paid` (repos/invoices_v2.rs, not in the
delivered sources). Modelled from the spec: transitions the invoice to the
paid state; a no-op if the invoice is already paid. -/
def setAmountPaid (id : InvoiceId) (input : InvoiceSetAmountPaid) (s : Db) : Db :=
  { s with invoices := s.invoices.map (paidSetF id input) }

/-- `InvoicesV2Repo::create` (repos/invoices_v2.rs, not in the delivered
sources). Modelled from the spec: insert, failing on a duplicate primary
key. -/
def invoicesCreate (inv : RawInvoice) (s : Db) : DbRes RawInvoice :=
  if (invoicesGet s inv.id).isSome then (Except.error ErrorKind.constraints, s)
  else (Except.ok inv, { s with invoices := s.invoices ++ [inv] })

/-- `OrdersRepo::create` (repos/orders.rs, not in the delivered sources).
Modelled from the spec: insert, failing on a duplicate primary key. The
`created_at`/`updated_at` columns are db-generated; they are modelled as 0. -/
def ordersCreate (no : NewOrder) (s : Db) : DbRes RawOrder :=
  if (s.orders.find? (fun o => o.id == no.id)).isSome then (Except.error ErrorKind.constraints, s)
  else
    let row : RawOrder :=
      { id := no.id
        seller_currency := no.seller_currency
        total_amount := no.total_amount
        cashback_amount := no.cashback_amount
        invoice_id := no.invoice_id
        created_at := 0
        updated_at := 0
        store_id := no.store_id
        state := PaymentState.initial
        stripe_fee := none }
    (Except.ok row, { s with orders := s.orders ++ [row] })

/-- `PaymentIntentRepo::create` (repos/payment_intent.rs, not in the
delivered sources). Modelled from the spec. -/
def paymentIntentsCreate (pi : NewPaymentIntent) (s : Db) : DbRes NewPaymentIntent :=
  (Except.ok pi, { s with payment_intents := s.payment_intents ++ [pi] })

/-- `PaymentIntentInvoiceRepo::create` (repos, not in the delivered sources).
Modelled from the spec. -/
def paymentIntentInvoicesCreate (link : NewPaymentIntentInvoice) (s : Db) :
    DbRes NewPaymentIntentInvoice :=
  (Except.ok link, { s with payment_intent_invoices := s.payment_intent_invoices ++ [link] })

/-- `PaymentIntentInvoiceRepo::get(SearchPaymentIntentInvoice::InvoiceId)`
(repos, not in the delivered sources). Modelled from the spec: exactly one
link per invoice when present. -/
def paymentIntentInvoicesGetByInvoiceId (s : Db) (id : InvoiceId) :
    Option NewPaymentIntentInvoice :=
  s.payment_intent_invoices.find? (fun l => l.invoice_id == id)

/-- `OrdersRepo::delete_by_invoice_id` (repos/orders.rs, not in the delivered
sources). Modelled from the spec: deletes and returns the invoice's orders. -/
def ordersDeleteByInvoiceId (id : InvoiceId) (s : Db) : List RawOrder × Db :=
  (s.orders.filter (fun o => o.invoice_id == id),
   { s with orders := s.orders.filter (fun o => !(o.invoice_id == id)) })

/-- `OrderExchangeRatesRepo::delete_by_order_id` (repos, not in the delivered
sources). Modelled from the spec. -/
def ratesDeleteByOrderId (oid : OrderId) (s : Db) : Db :=
  { s with rates := s.rates.filter (fun r => !(r.order_id == oid)) }

/-- `PaymentIntentRepo::delete` (repos, not in the delivered sources).
Modelled from the spec: removes and returns the row when present. -/
def paymentIntentsDelete (pid : PaymentIntentId) (s : Db) : Option NewPaymentIntent × Db :=
  (s.payment_intents.find? (fun p => p.id == pid),
   { s with payment_intents := s.payment_intents.filter (fun p => !(p.id == pid)) })

/-- `InvoicesV2Repo::delete` (repos/invoices_v2.rs, not in the delivered
sources). Modelled from the spec. -/
def invoicesDelete (id : InvoiceId) (s : Db) : Db :=
  { s with invoices := s.invoices.filter (fun i => !(i.id == id)) }

/-- `EventStoreRepo::add_event` (repos/event_store.rs, not in the delivered
sources). Modelled from the spec: append a Pending entry with no schedule. -/
def addEvent (p : EventPayload) (s : Db) : Db :=
  { s with events := s.events ++ [{ payload := p, scheduled_for := none }] }

/-- `EventStoreRepo::add_scheduled_event` (repos/event_store.rs, not in the
delivered sources). Modelled from the spec: append a Pending entry whose
delivery is delayed until `t`. -/
def addScheduledEvent (p : EventPayload) (t : Nat) (s : Db) : Db :=
  { s with events := s.events ++ [{ payload := p, scheduled_for := some t }] }

/-- Number of `InvoicePaid` entries in the journal. -/
def invoicePaidCount (s : Db) : Nat :=
  s.events.countP (fun e =>
    match e.payload with
    | EventPayload.invoicePaid _ => true
    | _ => false)

/-- The id → amount_captured table of the invoice store (the observable that
idempotent capture is about). -/
def amountsMap (s : Db) : List (InvoiceId × Amount) :=
  s.invoices.map (fun i => (i.id, i.amount_captured))

/-- `InvoiceDump` (models/invoice_v2.rs, not in the delivered sources).
Modelled from the spec: total price in buyer super-units, total cashback,
the missing-rates flag, the stored invoice amounts and the wallet address. -/
structure InvoiceDump where
  invoice_id : InvoiceId
  buyer_currency : Currency
  amount_captured : Amount
  total_price : Rat
  total_cashback : Option Rat
  has_missing_rates : Bool
  final_amount_paid : Option Amount
  final_cashback_amount : Option Amount
  paid_at : Option Nat
  wallet_address : Option WalletAddress
deriving DecidableEq, Repr

/-- Price contribution of one order, in buyer super-units: seller minor
units are converted to super units and divided by the first of the supplied
rates; without a rate a same-currency order counts 1:1 and a
different-currency order is flagged missing (and contributes 0). Modelled
from the spec (§4.D). -/
def orderBuyerPrice (buyer : Currency) (o : RawOrder)
    (rs : List RawOrderExchangeRate) : Rat :=
  match rs.head? with
  | some r => ratDiv (toSuperUnit o.seller_currency o.total_amount) r.exchange_rate
  | none =>
    if o.seller_currency == buyer then toSuperUnit o.seller_currency o.total_amount else 0

/-- Cashback contribution of one order, converted the same way as the
price. Modelled from the spec (§4.D). -/
def orderBuyerCashback (buyer : Currency) (o : RawOrder)
    (rs : List RawOrderExchangeRate) : Rat :=
  match rs.head? with
  | some r => ratDiv (toSuperUnit o.seller_currency o.cashback_amount) r.exchange_rate
  | none =>
    if o.seller_currency == buyer then toSuperUnit o.seller_currency o.cashback_amount else 0

/-- `calculate_invoice_price` (models/invoice_v2.rs, not in the delivered
sources). Modelled from the spec (§4.D): a pure function from the invoice
row, the orders with their rates and the wallet address to the dump; it
never writes. -/
def calculateInvoicePrice (inv : RawInvoice)
    (orders_with_rates : List (RawOrder × List RawOrderExchangeRate))
    (wallet : Option WalletAddress) : InvoiceDump :=
  { invoice_id := inv.id
    buyer_currency := inv.buyer_currency
    amount_captured := inv.amount_captured
    total_price :=
      ratSum (orders_with_rates.map (fun p => orderBuyerPrice inv.buyer_currency p.1 p.2))
    total_cashback :=
      some (ratSum (orders_with_rates.map (fun p => orderBuyerCashback inv.buyer_currency p.1 p.2)))
    has_missing_rates :=
      orders_with_rates.any (fun p => p.2.isEmpty && !(p.1.seller_currency == inv.buyer_currency))
    final_amount_paid := inv.final_amount_paid
    final_cashback_amount := inv.final_cashback_amount
    paid_at := inv.paid_at
    wallet_address := wallet }

/-- `get_order_active_rates` (src/services/invoice.rs): the invoice's orders
each paired with their active rate. -/
def getOrderActiveRates (s : Db) (id : InvoiceId) :
    List (RawOrder × Option RawOrderExchangeRate) :=
  (ordersGetManyByInvoiceId s id).map (fun o => (o, ratesGetActiveForOrder s o.id))

/-- `get_invoice_price` (src/services/invoice.rs): loads all rates of every
order and the wallet address of the invoice's account (an invoice that
references a missing account is an Internal error), then prices the
invoice. Read-only. -/
def getInvoicePrice (s : Db) (inv : RawInvoice) : Except ErrorKind InvoiceDump :=
  let orders_with_rates :=
    (ordersGetManyByInvoiceId s inv.id).map (fun o => (o, ratesGetAllForOrder s o.id))
  match inv.account_id with
  | some aid =>
    match accountsGet s aid with
    | none => Except.error ErrorKind.internal
    | some acc =>
      Except.ok (calculateInvoicePrice inv orders_with_rates (some acc.wallet_address))
  | none => Except.ok (calculateInvoicePrice inv orders_with_rates none)

/-- `calculate_invoice_price_and_set_final_price_if_paid`
(src/services/invoice.rs): in one transaction, re-fetch the invoice, price
it, and — only when it is not yet paid and `has_missing_rates == false` and
the captured amount in super-units reaches the total price — store the final
amounts with `paid_at := now` and enqueue an InvoicePaid event. -/
def calcAndSetFinalIfPaid (now : Nat) (id : InvoiceId) (s : Db) : DbRes InvoiceDump :=
  transaction (fun s0 =>
    match invoicesGet s0 id with
    | none => (Except.error ErrorKind.internal, s0)
    | some inv =>
      match getInvoicePrice s0 inv with
      | Except.error e => (Except.error e, s0)
      | Except.ok dump =>
        if inv.paid_at.isSome then (Except.ok dump, s0)
        else
          if dump.has_missing_rates = false ∧
              dump.total_price ≤ toSuperUnit inv.buyer_currency inv.amount_captured then
            let input : InvoiceSetAmountPaid :=
              { final_amount_paid := fromSuperUnit dump.buyer_currency dump.total_price
                final_cashback_amount :=
                  fromSuperUnit Currency.stq (dump.total_cashback.getD 0)
                paid_at := now }
            let s1 := setAmountPaid inv.id input s0
            let s2 := addEvent (EventPayload.invoicePaid inv.id) s1
            (Except.ok dump, s2)
          else (Except.ok dump, s0)) s

/-- Payment-intent source types accepted by the card PSP client. -/
inductive PaymentIntentSourceType
  | card
deriving DecidableEq, Repr

/-- Capture methods of the card PSP client. -/
inductive CaptureMethod
  | automatic
  | manual
deriving DecidableEq, Repr

/-- `stripe::NewPaymentIntent` creation parameters (external crate), as
built by the service. -/
structure StripeClientNewPaymentIntent where
  allowed_source_types : List PaymentIntentSourceType
  amount : Nat
  currency : Currency
  capture_method : Option CaptureMethod
deriving DecidableEq, Repr

/-- `BigDecimal::to_u64`: truncate the fractional part; `none` when the
value is negative or does not fit in 64 bits. -/
def toU64 (q : Rat) : Option Nat :=
  if q.num < 0 then none
  else if q.floor.toNat < 2 ^ 64 then some q.floor.toNat else none

/-- `Currency::try_into_stripe_currency` (models/currency.rs, not in the
delivered sources). Modelled from the spec: the card PSP handles fiat
currencies only. -/
def tryIntoStripeCurrency (c : Currency) : Option Currency :=
  if c.is_fiat then some c else none

/-- `TureCurrency::try_from_currency` wrapped by `to_ture_currency`
(src/services/invoice.rs): only crypto currencies exist on the crypto PSP;
a fiat currency is an Internal error. -/
def toTureCurrency (c : Currency) : Except ErrorKind Currency :=
  if c.is_fiat then Except.error ErrorKind.internal else Except.ok c

/-- `payment_intent_create_params` (src/services/invoice.rs): folds
`total_amount / exchange_rate` over the orders (as BigDecimal), converts the
sum with `to_u64`, and builds the card-PSP intent parameters. -/
def paymentIntentCreateParams (orders : List (NewOrder × Option ExchangeId × Rat))
    (buyer_currency : Currency) : Except ErrorKind StripeClientNewPaymentIntent :=
  let exchanged_amount : Rat :=
    (orders.map (fun p => ratDiv (p.1.total_amount : Rat) p.2.2)).foldl
      (fun acc next => ratAdd acc next) 0
  match toU64 exchanged_amount with
  | none => Except.error ErrorKind.internal
  | some amount =>
    match tryIntoStripeCurrency buyer_currency with
    | none => Except.error ErrorKind.internal
    | some currency =>
      Except.ok
        { allowed_source_types := [PaymentIntentSourceType.card]
          amount := amount
          currency := currency
          capture_method := some CaptureMethod.automatic }

/-- `exchage_rate_fiat` (src/services/invoice.rs): both currencies fiat —
they must coincide; the rate is the dummy 1 without an exchange id,
otherwise a Validation error carrying both currencies. -/
def exchageRateFiat (new_order : NewOrder) (buyer_currency seller_currency : Currency) :
    Except ErrorKind (NewOrder × Option ExchangeId × Rat) :=
  if buyer_currency ≠ seller_currency then
    Except.error (ErrorKind.validation buyer_currency seller_currency)
  else Except.ok (new_order, none, 1)

/-- The crypto PSP rate operations, as a deterministic oracle:
`getRate from to amount` reserves a rate, `refreshRate id` returns
`(is_new_rate, new id, rate)`. -/
structure PaymentsOracle where
  getRate : Currency → Currency → Amount → ExchangeId × Rat
  refreshRate : ExchangeId → Bool × ExchangeId × Rat

/-- `get_rate` (src/services/invoice.rs): a dummy 1 rate without an exchange
id when buyer and seller currency coincide, otherwise a reservation from the
payments gateway. -/
def getRateF (oracle : PaymentsOracle) (buyer seller : Currency) (total : Amount) :
    Option ExchangeId × Rat :=
  if buyer == seller then (none, 1)
  else
    let r := oracle.getRate buyer seller total
    (some r.1, r.2)

/-- `exchage_rate_crypto` (src/services/invoice.rs): both currencies crypto —
convert both to Ture currencies and reserve a rate. -/
def exchageRateCrypto (oracle : PaymentsOracle) (new_order : NewOrder)
    (buyer_currency seller_currency : Currency) (total : Amount) :
    Except ErrorKind (NewOrder × Option ExchangeId × Rat) :=
  match toTureCurrency buyer_currency with
  | Except.error e => Except.error e
  | Except.ok b =>
    match toTureCurrency seller_currency with
    | Except.error e => Except.error e
    | Except.ok sc =>
      let r := getRateF oracle b sc total
      Except.ok (new_order, r.1, r.2)

/-- The per-order dispatch of `create_invoice_v2` (src/services/invoice.rs,
the match on `(buyer_currency.is_fiat(), seller_currency.is_fiat())`):
fiat–fiat and crypto–crypto are priced, a fiat–crypto mix is an Internal
error ("fiat - crypto payments are not supported yet"). -/
def orderExchangeRateStep (oracle : PaymentsOracle) (new_order : NewOrder)
    (buyer_currency seller_currency : Currency) (total : Amount) :
    Except ErrorKind (NewOrder × Option ExchangeId × Rat) :=
  match buyer_currency.is_fiat, seller_currency.is_fiat with
  | true, true => exchageRateFiat new_order buyer_currency seller_currency
  | false, false => exchageRateCrypto oracle new_order buyer_currency seller_currency total
  | _, _ => Except.error ErrorKind.internal

/-- `reserve_or_refresh_rate` (src/services/invoice.rs): no current rate —
reserve one; a dummy rate (no exchange id) — keep it; otherwise refresh
through the gateway and return a replacement only when `is_new_rate`. -/
def reserveOrRefreshRate (oracle : PaymentsOracle) (buyer : Currency)
    (o : RawOrder) (current : Option RawOrderExchangeRate) :
    Except ErrorKind (Option NewOrderExchangeRate) :=
  match current with
  | none =>
    match toTureCurrency o.seller_currency with
    | Except.error e => Except.error e
    | Except.ok seller =>
      let r := getRateF oracle buyer seller o.total_amount
      Except.ok (some { order_id := o.id, exchange_id := r.1, exchange_rate := r.2 })
  | some cur =>
    match cur.exchange_id with
    | none => Except.ok none
    | some eid =>
      match oracle.refreshRate eid with
      | (true, eid2, rate2) =>
        Except.ok (some { order_id := o.id, exchange_id := some eid2, exchange_rate := rate2 })
      | (false, _, _) => Except.ok none

/-- `refresh_rates` (src/services/invoice.rs): reserve-or-refresh every
order's rate, keeping only the new and updated rates. -/
def refreshRates (oracle : PaymentsOracle) (buyer : Currency)
    (current_order_rates : List (RawOrder × Option RawOrderExchangeRate)) :
    Except ErrorKind (List NewOrderExchangeRate) :=
  match current_order_rates with
  | [] => Except.ok []
  | p :: rest =>
    match reserveOrRefreshRate oracle buyer p.1 p.2 with
    | Except.error e => Except.error e
    | Except.ok r =>
      match refreshRates oracle buyer rest with
      | Except.error e => Except.error e
      | Except.ok rs =>
        Except.ok (match r with | some nr => nr :: rs | none => rs)

/-- Persist a batch of new active rates (the save step shared by the recalc
flows in src/services/invoice.rs). -/
def saveNewRates (nrs : List NewOrderExchangeRate) (s : Db) : Db :=
  nrs.foldl (fun st nr => (addNewActiveRate nr st).2) s

/-- The webhook-signature oracle: `verify pk sig body` is the verdict of
secp256k1 compact-signature verification of `sig` over SHA-256 of `body`
against the public key `pk`. -/
structure Crypto where
  verify : Nat → Nat → Nat → Bool

/-- `check_ture_sign` (src/services/invoice.rs): every failure — message
construction, public-key or signature parsing, or verification — is a
Forbidden error; the parse failures are folded into a `false` verdict of the
abstract oracle. -/
def checkTureSign (crypto : Crypto) (sign_public_key signature body : Nat) :
    Except ErrorKind Unit :=
  if crypto.verify sign_public_key signature body then Except.ok ()
  else Except.error ErrorKind.forbidden

/-- Account resolution of `handle_inbound_tx` (src/services/invoice.rs):
use the callback's account id when given, otherwise look the account up by
wallet address; an unknown wallet address is NotFound. -/
def resolveAccountId (cb : PaymentsCallback) (s : Db) : Except ErrorKind AccountId :=
  match cb.account_id with
  | some a => Except.ok a
  | none =>
    match accountsGetByWalletAddress s cb.address with
    | some acc => Except.ok acc.id
    | none => Except.error ErrorKind.notFound

/-- `Amount::from_str` step of `handle_inbound_tx`: a malformed amount
string is an Internal error. -/
def parseAmount (cb : PaymentsCallback) : Except ErrorKind Nat :=
  match cb.amount_captured with
  | some n => Except.ok n
  | none => Except.error ErrorKind.internal

/-- The `increase_amount_captured(..).or_else(..)` step of
`handle_inbound_tx`: on the AlreadyApplied constraint error the current
invoice row is fetched by account id instead (idempotent retry path); an
account not linked to an invoice there is an Internal error. -/
def increaseOrFetch (aid : AccountId) (tx : TransactionId) (amt : Amount) (s : Db) :
    DbRes RawInvoice :=
  match increaseAmountCaptured aid tx amt s with
  | (Except.ok inv, s1) => (Except.ok inv, s1)
  | (Except.error ErrorKind.constraints, s1) =>
    (match invoicesGetByAccountId s1 aid with
     | some inv => (Except.ok inv, s1)
     | none => (Except.error ErrorKind.internal, s1))
  | (Except.error e, s1) => (Except.error e, s1)

/-- First phase of `handle_inbound_tx` (src/services/invoice.rs): verify
the signature, resolve the account, parse the amount, require a linked
invoice (NotFound otherwise), then increase the captured amount (or fetch
the invoice on a duplicate). -/
def inboundPhase1 (crypto : Crypto) (pk sig body : Nat) (cb : PaymentsCallback)
    (s : Db) : DbRes RawInvoice :=
  match checkTureSign crypto pk sig body with
  | Except.error e => (Except.error e, s)
  | Except.ok _ =>
    match resolveAccountId cb s with
    | Except.error e => (Except.error e, s)
    | Except.ok aid =>
      match parseAmount cb with
      | Except.error e => (Except.error e, s)
      | Except.ok amt =>
        if (invoicesGetByAccountId s aid).isNone then (Except.error ErrorKind.notFound, s)
        else increaseOrFetch aid cb.transaction_id amt s

/-- The recalc that `handle_inbound_tx` performs on a not-yet-paid invoice:
load the active rates, refresh them through the gateway, persist the new
active rates, then price and possibly finalize via
`calculate_invoice_price_and_set_final_price_if_paid`. -/
def inboundRecalc (oracle : PaymentsOracle) (now : Nat) (inv : RawInvoice) (s : Db) :
    DbRes Unit :=
  let current := getOrderActiveRates s inv.id
  match toTureCurrency inv.buyer_currency with
  | Except.error e => (Except.error e, s)
  | Except.ok buyer =>
    match refreshRates oracle buyer current with
    | Except.error e => (Except.error e, s)
    | Except.ok nrs =>
      let s1 := saveNewRates nrs s
      match calcAndSetFinalIfPaid now inv.id s1 with
      | (Except.ok _, s2) => (Except.ok (), s2)
      | (Except.error e, s2) => (Except.error e, s2)

/-- Second phase of `handle_inbound_tx`: skip the recalc when the invoice
row is already paid. -/
def inboundPhase2 (oracle : PaymentsOracle) (now : Nat) (inv : RawInvoice) (s : Db) :
    DbRes Unit :=
  match inv.paid_at with
  | some _ => (Except.ok (), s)
  | none => inboundRecalc oracle now inv s

/-- The final `.then` of `handle_inbound_tx`: a NotFound outcome is silently
converted to success (so the gateway stops retrying unknown subjects). -/
def swallowNotFound (r : DbRes Unit) : DbRes Unit :=
  match r with
  | (Except.error ErrorKind.notFound, s) => (Except.ok (), s)
  | r => r

/-- `handle_inbound_tx` (src/services/invoice.rs). -/
def handleInboundTx (crypto : Crypto) (oracle : PaymentsOracle) (now : Nat)
    (pk sig body : Nat) (cb : PaymentsCallback) (s : Db) : DbRes Unit :=
  swallowNotFound
    (match inboundPhase1 crypto pk sig body cb s with
     | (Except.error e, s1) => (Except.error e, s1)
     | (Except.ok inv, s1) => inboundPhase2 oracle now inv s1)

/-- Wallet-address lookup shared by the recalc flow (src/services/
invoice.rs): an invoice that names a missing account is an Internal error. -/
def walletLookup (s : Db) (inv : RawInvoice) : Except ErrorKind (Option WalletAddress) :=
  match inv.account_id with
  | some aid =>
    match accountsGet s aid with
    | none => Except.error ErrorKind.internal
    | some acc => Except.ok (some acc.wallet_address)
  | none => Except.ok none

/-- `recalc_invoice_v2` (src/services/invoice.rs): `none` when the invoice
does not exist; for a paid invoice the stored data is priced as-is (each
order paired with its active rate, if any); otherwise the rates are
refreshed (skipped entirely for a fiat buyer) and the invoice is priced and
possibly finalized. -/
def recalcInvoiceV2 (oracle : PaymentsOracle) (now : Nat) (id : InvoiceId) (s : Db) :
    DbRes (Option InvoiceDump) :=
  match invoicesGet s id with
  | none => (Except.ok none, s)
  | some inv =>
    let current := getOrderActiveRates s id
    match walletLookup s inv with
    | Except.error e => (Except.error e, s)
    | Except.ok wallet =>
      if inv.paid_at.isSome then
        (Except.ok (some (calculateInvoicePrice inv
          (current.map (fun p => (p.1, p.2.toList))) wallet)), s)
      else
        match
          (if inv.buyer_currency.is_fiat then Except.ok []
           else
             match toTureCurrency inv.buyer_currency with
             | Except.error e => Except.error e
             | Except.ok buyer => refreshRates oracle buyer current) with
        | Except.error e => (Except.error e, s)
        | Except.ok nrs =>
          let s1 := saveNewRates nrs s
          match calcAndSetFinalIfPaid now id s1 with
          | (Except.ok d, s2) => (Except.ok (some d), s2)
          | (Except.error e, s2) => (Except.error e, s2)

/-- `CreateOrderV2` (models, not in the delivered sources). Modelled from
the spec: one `(order_id, store_id, seller_currency, seller_total_amount,
cashback_percent?)` entry; the request's amounts are in super-units. -/
structure CreateOrderV2 where
  id : OrderId
  store_id : StoreId
  currency : Currency
  total_amount : Rat
  product_cashback : Option Rat
deriving DecidableEq, Repr

/-- `CreateInvoiceV2` (models, not in the delivered sources). Modelled from
the spec: the saga id is used as the invoice id. -/
structure CreateInvoiceV2 where
  orders : List CreateOrderV2
  customer_id : UserId
  currency : Currency
  saga_id : InvoiceId
deriving DecidableEq, Repr

/-- `config::PaymentExpiry` timeouts, in minutes. -/
structure PaymentExpiry where
  crypto_timeout_min : Nat
  fiat_timeout_min : Nat
deriving DecidableEq, Repr

/-- External collaborators and clock of `create_invoice_v2`: the card PSP's
payment-intent creation, the pooled-account allocation, the current time (in
minutes) and the configured expiry timeouts. -/
structure CreateEnv where
  oracle : PaymentsOracle
  stripeCreate : StripeClientNewPaymentIntent → PaymentIntent
  pooledAccount : Currency → AccountId × WalletAddress
  now : Nat
  payment_expiry : PaymentExpiry

/-- The `NewOrder` built for one requested order in `create_invoice_v2`
(src/services/invoice.rs): amounts converted from super-units, the cashback
being the requested fraction of the total. -/
def newOrderOf (saga_id : InvoiceId) (co : CreateOrderV2) : NewOrder :=
  { id := co.id
    seller_currency := co.currency
    total_amount := fromSuperUnit co.currency co.total_amount
    cashback_amount :=
      match co.product_cashback with
      | none => 0
      | some f => fromSuperUnit co.currency (ratMul co.total_amount f)
    invoice_id := saga_id
    store_id := co.store_id }

/-- The per-order pricing loop of `create_invoice_v2`. -/
def priceOrders (oracle : PaymentsOracle) (buyer : Currency) (saga_id : InvoiceId) :
    List CreateOrderV2 → Except ErrorKind (List (NewOrder × Option ExchangeId × Rat))
  | [] => Except.ok []
  | co :: rest =>
    let no := newOrderOf saga_id co
    match orderExchangeRateStep oracle no buyer co.currency no.total_amount with
    | Except.error e => Except.error e
    | Except.ok triple =>
      match priceOrders oracle buyer saga_id rest with
      | Except.error e => Except.error e
      | Except.ok t => Except.ok (triple :: t)

/-- `new_payment_intent` (src/services/invoice.rs): the rows persisted for a
card-PSP payment intent (the currency conversion from the stripe type cannot
fail in the model, where both sides use `Currency`). -/
def newPaymentIntentRows (invoice_id : InvoiceId) (pi : PaymentIntent) :
    NewPaymentIntent × NewPaymentIntentInvoice :=
  ({ id := pi.id
     amount := pi.amount
     amount_received := pi.amount_received
     currency := pi.currency
     status := pi.status
     charge_id := pi.charge_id },
   { invoice_id := invoice_id, payment_intent_id := pi.id })

/-- `create_payment_intent` (src/services/invoice.rs): build the creation
parameters and call the card PSP. -/
def createPaymentIntentStep (env : CreateEnv)
    (priced : List (NewOrder × Option ExchangeId × Rat)) (invoice_id : InvoiceId)
    (buyer : Currency) : Except ErrorKind (NewPaymentIntent × NewPaymentIntentInvoice) :=
  match paymentIntentCreateParams priced buyer with
  | Except.error e => Except.error e
  | Except.ok params => Except.ok (newPaymentIntentRows invoice_id (env.stripeCreate params))

/-- The order/rate insertion loop inside the `create_invoice_v2`
transaction: create each order and its initial active rate. -/
def insertOrdersWithRates (priced : List (NewOrder × Option ExchangeId × Rat)) (s : Db) :
    DbRes (List (RawOrder × List RawOrderExchangeRate)) :=
  match priced with
  | [] => (Except.ok [], s)
  | p :: rest =>
    match ordersCreate p.1 s with
    | (Except.error e, s1) => (Except.error e, s1)
    | (Except.ok order, s1) =>
      let rr := addNewActiveRate
        { order_id := p.1.id, exchange_id := p.2.1, exchange_rate := p.2.2 } s1
      match insertOrdersWithRates rest rr.2 with
      | (Except.error e, s2) => (Except.error e, s2)
      | (Except.ok tail, s2) => (Except.ok ((order, [rr.1]) :: tail), s2)

/-- The optional payment-intent row inserts inside the `create_invoice_v2`
transaction. -/
def insertPaymentIntentRows (rows : Option (NewPaymentIntent × NewPaymentIntentInvoice))
    (s : Db) : Db :=
  match rows with
  | none => s
  | some pr => (paymentIntentInvoicesCreate pr.2 (paymentIntentsCreate pr.1 s).2).2

/-- `create_invoice_v2` (src/services/invoice.rs): price every order (card
PSP intent or pooled account allocated up front, outside any transaction),
then add the scheduled PaymentExpired event, then — in one transaction —
insert the invoice row, the payment-intent rows and every order with its
initial active rate, returning the priced dump. -/
def createInvoiceV2 (env : CreateEnv) (ci : CreateInvoiceV2) (s : Db) : DbRes InvoiceDump :=
  match priceOrders env.oracle ci.currency ci.saga_id ci.orders with
  | Except.error e => (Except.error e, s)
  | Except.ok priced =>
    match
      (if ci.currency.is_fiat then
        match createPaymentIntentStep env priced ci.saga_id ci.currency with
        | Except.error e => Except.error e
        | Except.ok rows => Except.ok ((none : Option AccountId), (none : Option WalletAddress), some rows)
      else
        match toTureCurrency ci.currency with
        | Except.error e => Except.error e
        | Except.ok c =>
          let acc := env.pooledAccount c
          Except.ok (some acc.1, some acc.2,
            (none : Option (NewPaymentIntent × NewPaymentIntentInvoice)))) with
    | Except.error e => (Except.error e, s)
    | Except.ok (account_id, wallet, newpi) =>
      let timeout :=
        match newpi with
        | none => env.payment_expiry.crypto_timeout_min
        | some _ => env.payment_expiry.fiat_timeout_min
      let s1 := addScheduledEvent (EventPayload.paymentExpired ci.saga_id)
        (env.now + timeout) s
      transaction (fun s2 =>
        let inv : RawInvoice :=
          { id := ci.saga_id
            buyer_user_id := ci.customer_id
            buyer_currency := ci.currency
            amount_captured := 0
            account_id := account_id
            final_amount_paid := none
            final_cashback_amount := none
            paid_at := none }
        match invoicesCreate inv s2 with
        | (Except.error e, s3) => (Except.error e, s3)
        | (Except.ok inv, s3) =>
          let s4 := insertPaymentIntentRows newpi s3
          match insertOrdersWithRates priced s4 with
          | (Except.error e, s5) => (Except.error e, s5)
          | (Except.ok orders_with_rates, s5) =>
            (Except.ok (calculateInvoicePrice inv orders_with_rates wallet), s5)) s1

/-- `delete_invoice_by_saga_id_v2` (src/services/invoice.rs): in one
transaction, delete the orders and their rates, require the
payment-intent↔invoice link (Internal error when absent), delete the
payment intent and the invoice. The best-effort card-PSP cancel that
follows a successful commit has no ledger effect and is outside the model. -/
def deleteInvoiceBySagaIdV2 (id : InvoiceId) (s : Db) : DbRes (Option NewPaymentIntent) :=
  transaction (fun s0 =>
    let del := ordersDeleteByInvoiceId id s0
    let s1 := del.1.foldl (fun st o => ratesDeleteByOrderId o.id st) del.2
    match paymentIntentInvoicesGetByInvoiceId s1 id with
    | none => (Except.error ErrorKind.internal, s1)
    | some link =>
      let dp := paymentIntentsDelete link.payment_intent_id s1
      (Except.ok dp.1, invoicesDelete id dp.2)) s

/-- Variant tag of an event payload. -/
def eventTag : EventPayload → Nat
  | EventPayload.noOp => 0
  | EventPayload.invoicePaid _ => 1
  | EventPayload.paymentIntentPaymentFailed _ => 2
  | EventPayload.paymentIntentAmountCapturableUpdated _ => 3
  | EventPayload.paymentIntentSucceeded _ => 4
  | EventPayload.paymentIntentCapture _ => 5
  | EventPayload.paymentExpired _ => 6
  | EventPayload.payoutInitiated _ => 7

/-- The entity identifiers mentioned by an event payload. -/
def eventEntityIds : EventPayload → List Nat
  | EventPayload.noOp => []
  | EventPayload.invoicePaid i => [i]
  | EventPayload.paymentIntentPaymentFailed pi => [pi.id]
  | EventPayload.paymentIntentAmountCapturableUpdated pi => [pi.id]
  | EventPayload.paymentIntentSucceeded pi => [pi.id]
  | EventPayload.paymentIntentCapture o => [o]
  | EventPayload.paymentExpired i => [i]
  | EventPayload.payoutInitiated p => [p]

/-- The payload variants whose field is a bare identifier (as opposed to the
three webhook variants that embed the whole `stripe::PaymentIntent`). -/
def idOnlyVariant : EventPayload → Bool
  | EventPayload.paymentIntentPaymentFailed _ => false
  | EventPayload.paymentIntentAmountCapturableUpdated _ => false
  | EventPayload.paymentIntentSucceeded _ => false
  | _ => true

/-- The payment-intent amount computation as the spec's words describe it
(written from the spec, for comparison with `paymentIntentCreateParams`):
each order's total amount expressed in seller super-units, divided by the
order's exchange rate, summed, and converted to an integer amount in the
buyer currency's minor unit. -/
def paymentIntentAmountSpec (orders : List (NewOrder × Option ExchangeId × Rat))
    (buyer_currency : Currency) : Amount :=
  fromSuperUnit buyer_currency
    (ratSum (orders.map (fun p => ratDiv (toSuperUnit p.1.seller_currency p.1.total_amount) p.2.2)))

/-- A pointwise invoice-row transformation that keeps row identity and the
monotone-paid fields: it never changes an invoice's id or account link, and
on a row whose `paid_at` is already set it changes neither
`final_amount_paid` nor `final_cashback_amount` nor `paid_at`. -/
def PaidOk (f : RawInvoice → RawInvoice) : Prop :=
  ∀ i : RawInvoice,
    (f i).id = i.id ∧ (f i).account_id = i.account_id ∧
    (i.paid_at.isSome = true →
      (f i).final_amount_paid = i.final_amount_paid ∧
      (f i).final_cashback_amount = i.final_cashback_amount ∧
      (f i).paid_at = i.paid_at)

/-- The state transformer of one webhook delivery. -/
def inboundStep (crypto : Crypto) (oracle : PaymentsOracle) (now : Nat)
    (pk sig body : Nat) (cb : PaymentsCallback) (s : Db) : Db :=
  (handleInboundTx crypto oracle now pk sig body cb s).2

section Fixtures

/-- An empty ledger, used by concrete witnesses. -/
def dbEmpty : Db :=
  { invoices := [], orders := [], rates := [], accounts := [], applied_txs := []
    payment_intents := [], payment_intent_invoices := [], events := [], next_rate_id := 0 }

/-- A pooled STQ account at wallet address 42. -/
def accW : RawAccount :=
  { id := 5, currency := Currency.stq, is_pooled := true, created_at := 0, wallet_address := 42 }

/-- An unpaid crypto invoice linked to account 5. -/
def invW : RawInvoice :=
  { id := 1, buyer_user_id := 7, buyer_currency := Currency.stq, amount_captured := 0
    account_id := some 5, final_amount_paid := none, final_cashback_amount := none
    paid_at := none }

/-- A paid crypto invoice linked to account 5. -/
def invPaidW : RawInvoice :=
  { id := 1, buyer_user_id := 7, buyer_currency := Currency.stq, amount_captured := 300
    account_id := some 5, final_amount_paid := some 300, final_cashback_amount := some 0
    paid_at := some 31 }

/-- One STQ order of invoice 1 over 300 wei. -/
def ordW : RawOrder :=
  { id := 11, seller_currency := Currency.stq, total_amount := 300, cashback_amount := 0
    invoice_id := 1, created_at := 0, updated_at := 0, store_id := 3
    state := PaymentState.initial, stripe_fee := none }

/-- The dummy 1:1 active rate of order 11. -/
def rateW : RawOrderExchangeRate :=
  { id := 0, order_id := 11, exchange_id := none, exchange_rate := 1
    status := ExchangeRateStatus.active }

/-- The unpaid invoice 1 with 300 wei captured. -/
def invCapturedW : RawInvoice := { invW with amount_captured := 300 }

/-- A ledger with the unpaid invoice 1, fully captured (300 wei against a
300-wei order at rate 1). -/
def dbUnpaidW : Db :=
  { dbEmpty with
    invoices := [invCapturedW], orders := [ordW], rates := [rateW]
    accounts := [accW], next_rate_id := 1 }

/-- The fully-captured invoice 1 as priced by the service. -/
def dumpW : InvoiceDump := calculateInvoicePrice invCapturedW [(ordW, [rateW])] (some 42)

/-- A ledger with the paid invoice 1. -/
def dbPaidW : Db :=
  { dbEmpty with
    invoices := [invPaidW], orders := [ordW], rates := [rateW], accounts := [accW]
    next_rate_id := 1 }

/-- A signature oracle that accepts everything. -/
def cryptoOkW : Crypto := { verify := fun _ _ _ => true }

/-- A signature oracle that rejects everything. -/
def cryptoBadW : Crypto := { verify := fun _ _ _ => false }

/-- A rate oracle: every reservation and refresh yields the unchanged rate 1. -/
def oracleW : PaymentsOracle :=
  { getRate := fun _ _ _ => (0, 1), refreshRate := fun e => (false, e, 1) }

/-- A webhook callback crediting 300 wei to account 5 as transaction 77. -/
def cbW : PaymentsCallback :=
  { transaction_id := 77, account_id := some 5, amount_captured := some 300, address := 42
    currency := Currency.stq }

/-- A card-PSP oracle echoing the requested amount and currency. -/
def stripeW : StripeClientNewPaymentIntent → PaymentIntent := fun p =>
  { id := 900, amount := p.amount, amount_received := 0, currency := p.currency
    status := PaymentIntentStatus.requiresSource, charge_id := none }

/-- A creation environment: clock at 50, fiat expiry 15 min, crypto expiry
60 min. -/
def envW : CreateEnv :=
  { oracle := oracleW, stripeCreate := stripeW, pooledAccount := fun _ => (5, 42)
    now := 50, payment_expiry := { crypto_timeout_min := 60, fiat_timeout_min := 15 } }

/-- A one-order EUR checkout request re-using the taken invoice id 1. -/
def ciDupW : CreateInvoiceV2 :=
  { orders := [{ id := 21, store_id := 3, currency := Currency.eur, total_amount := 10
                 product_cashback := none }]
    customer_id := 7, currency := Currency.eur, saga_id := 1 }

/-- A one-order EUR checkout request under the fresh invoice id 2. -/
def ciFreshW : CreateInvoiceV2 :=
  { orders := [{ id := 21, store_id := 3, currency := Currency.eur, total_amount := 10
                 product_cashback := none }]
    customer_id := 7, currency := Currency.eur, saga_id := 2 }

/-- A ledger holding only the EUR invoice 1 (no orders, no link rows), used
to exercise the failing create transaction. -/
def dbEurInvW : Db :=
  { dbEmpty with
    invoices := [{ id := 1, buyer_user_id := 7, buyer_currency := Currency.eur
                   amount_captured := 0, account_id := none, final_amount_paid := none
                   final_cashback_amount := none, paid_at := none }] }

/-- A one-STQ-wei order row used in the payment-intent counterexample. -/
def noStqW : NewOrder :=
  { id := 11, seller_currency := Currency.stq, total_amount := 10 ^ 18
    cashback_amount := 0, invoice_id := 1, store_id := 3 }

/-- A small fiat order row. -/
def noEurW : NewOrder :=
  { id := 21, seller_currency := Currency.eur, total_amount := 1000
    cashback_amount := 0, invoice_id := 1, store_id := 3 }

/-- Two payment-intent payloads that agree on every entity id but differ in
the embedded mutable state (the intent's status). -/
def piProcessingW : PaymentIntent :=
  { id := 900, amount := 1000, amount_received := 0, currency := Currency.eur
    status := PaymentIntentStatus.processing, charge_id := none }

/-- Same intent as `piProcessingW` after it succeeded: same id, different
mutable state. -/
def piSucceededW : PaymentIntent :=
  { id := 900, amount := 1000, amount_received := 1000, currency := Currency.eur
    status := PaymentIntentStatus.succeeded, charge_id := none }

end Fixtures

/-- Resolution can only fail with NotFound. -/
theorem resolveAccountId_error (cb : PaymentsCallback) (s : Db) (e : ErrorKind)
    (h : resolveAccountId cb s = Except.error e) : e = ErrorKind.notFound := by
  unfold resolveAccountId at h
  cases hacc : cb.account_id with
  | some a => rw [hacc] at h; cases h
  | none =>
    rw [hacc] at h
    cases hw : accountsGetByWalletAddress s cb.address with
    | some acc => rw [hw] at h; cases h
    | none => rw [hw] at h; cases h; rfl

/-- A failed signature check aborts the whole handler with Forbidden. -/
theorem handle_verify_false (crypto : Crypto) (oracle : PaymentsOracle)
    (now pk sig body : Nat) (cb : PaymentsCallback) (s : Db)
    (h : crypto.verify pk sig body = false) :
    handleInboundTx crypto oracle now pk sig body cb s =
      (Except.error ErrorKind.forbidden, s) := by
  simp [handleInboundTx, inboundPhase1, checkTureSign, h, swallowNotFound]

/-- C4: an inbound crypto webhook whose Sign header does not verify as a
secp256k1 compact signature over the SHA-256 of the raw body against the
configured public key — in particular any body byte-mutated after signing,
which makes verification fail — makes handle_inbound_tx fail with a
Forbidden error (which the NotFound-swallowing epilogue does not catch),
before any ledger change. -/
theorem c4_signature_rejection (crypto : Crypto) (oracle : PaymentsOracle)
    (now pk sig body : Nat) (cb : PaymentsCallback) (s : Db)
    (h : crypto.verify pk sig body = false) :
    handleInboundTx crypto oracle now pk sig body cb s = (Except.error ErrorKind.forbidden, s) :=
  handle_verify_false crypto oracle now pk sig body cb s h

theorem c4_signature_rejection_witness :
    cryptoBadW.verify 0 0 0 = false ∧
    handleInboundTx cryptoBadW oracleW 99 0 0 0 cbW dbUnpaidW =
      (Except.error ErrorKind.forbidden, dbUnpaidW) :=
  ⟨rfl, c4_signature_rejection cryptoBadW oracleW 99 0 0 0 cbW dbUnpaidW rfl⟩

/-- C5: a well-signed, well-formed inbound crypto webhook that references an
unknown account or wallet address, or an account that no invoice is linked
to, is answered with success (the NotFound error is swallowed), and the
ledger is left completely unchanged. -/
theorem c5_unknown_webhook_swallowed (crypto : Crypto) (oracle : PaymentsOracle)
    (now pk sig body : Nat) (cb : PaymentsCallback) (s : Db) (amt : Nat)
    (hv : crypto.verify pk sig body = true)
    (hamt : cb.amount_captured = some amt)
    (hunknown : ∀ a : AccountId, resolveAccountId cb s = Except.ok a →
      invoicesGetByAccountId s a = none) :
    handleInboundTx crypto oracle now pk sig body cb s = (Except.ok (), s) := by
  unfold handleInboundTx inboundPhase1 checkTureSign
  rw [hv]
  simp only [if_true]
  cases hres : resolveAccountId cb s with
  | error e =>
    have he := resolveAccountId_error cb s e hres
    subst he
    rfl
  | ok a =>
    simp [parseAmount, hamt, hunknown a hres, swallowNotFound]

theorem c5_unknown_webhook_swallowed_witness :
    cryptoOkW.verify 0 0 0 = true ∧
    cbW.amount_captured = some 300 ∧
    handleInboundTx cryptoOkW oracleW 99 0 0 0 cbW dbEmpty = (Except.ok (), dbEmpty) :=
  ⟨rfl, rfl,
    c5_unknown_webhook_swallowed cryptoOkW oracleW 99 0 0 0 cbW dbEmpty 300 rfl rfl
      (fun _ _ => rfl)⟩

/-- C8: when pricing an order at invoice creation, two fiat currencies must
coincide (dummy rate 1, no exchange id), two distinct fiat currencies are a
Validation error carrying both currencies, and a fiat–crypto mix is an
Internal error ("not supported yet"). -/
theorem c8_fiat_pricing_dispatch (oracle : PaymentsOracle) (no : NewOrder)
    (total : Amount) (b sc : Currency) :
    (b.is_fiat = true → sc.is_fiat = true → b = sc →
      orderExchangeRateStep oracle no b sc total = Except.ok (no, none, 1)) ∧
    (b.is_fiat = true → sc.is_fiat = true → b ≠ sc →
      orderExchangeRateStep oracle no b sc total =
        Except.error (ErrorKind.validation b sc)) ∧
    (b.is_fiat ≠ sc.is_fiat →
      orderExchangeRateStep oracle no b sc total = Except.error ErrorKind.internal) := by
  refine ⟨?_, ?_, ?_⟩
  · intro hb hsc heq
    subst heq
    simp [orderExchangeRateStep, hb, exchageRateFiat]
  · intro hb hsc hne
    simp [orderExchangeRateStep, hb, hsc, exchageRateFiat, hne]
  · intro hmix
    cases hb : b.is_fiat <;> cases hsc : sc.is_fiat <;>
      simp [hb, hsc] at hmix ⊢ <;> simp [orderExchangeRateStep, hb, hsc]

theorem c8_fiat_pricing_dispatch_witness :
    orderExchangeRateStep oracleW noEurW Currency.eur Currency.eur 1000 =
      Except.ok (noEurW, none, 1) ∧
    orderExchangeRateStep oracleW noEurW Currency.eur Currency.usd 1000 =
      Except.error (ErrorKind.validation Currency.eur Currency.usd) ∧
    orderExchangeRateStep oracleW noEurW Currency.eur Currency.stq 1000 =
      Except.error ErrorKind.internal :=
  ⟨(c8_fiat_pricing_dispatch oracleW noEurW 1000 Currency.eur Currency.eur).1 rfl rfl rfl,
   (c8_fiat_pricing_dispatch oracleW noEurW 1000 Currency.eur Currency.usd).2.1 rfl rfl
     (by decide),
   (c8_fiat_pricing_dispatch oracleW noEurW 1000 Currency.eur Currency.stq).2.2 (by decide)⟩

/-- C9 fails on the code: a payload is not determined by its variant and the
entity ids it mentions — two PaymentIntentSucceeded payloads with the same
intent id but different mutable state (status, amount_received) are
distinct, because the variant embeds the whole PaymentIntent. -/
theorem c9_counterexample :
    ¬ (∀ p q : EventPayload, eventTag p = eventTag q →
        eventEntityIds p = eventEntityIds q → p = q) := by
  intro h
  exact absurd
    (h (EventPayload.paymentIntentSucceeded piProcessingW)
       (EventPayload.paymentIntentSucceeded piSucceededW) rfl rfl)
    (by decide)

/-- C9 (amended): the NoOp/InvoicePaid/PaymentIntentCapture/PaymentExpired/
PayoutInitiated variants carry only entity identifiers (such a payload is
determined by its variant and its ids), while the three PaymentIntent
webhook variants embed the full PaymentIntent object including its mutable
state. -/
theorem c9_amended_payload_ids :
    (∀ p q : EventPayload, idOnlyVariant p = true → eventTag p = eventTag q →
      eventEntityIds p = eventEntityIds q → p = q) ∧
    (∃ pi1 pi2 : PaymentIntent, pi1.id = pi2.id ∧
      EventPayload.paymentIntentSucceeded pi1 ≠ EventPayload.paymentIntentSucceeded pi2) := by
  constructor
  · intro p q hp ht hi
    cases p <;> cases q <;> simp_all [idOnlyVariant, eventTag, eventEntityIds]
  · exact ⟨piProcessingW, piSucceededW, rfl, by decide⟩

theorem c9_amended_payload_ids_witness :
    EventPayload.invoicePaid 4 = EventPayload.invoicePaid 4 :=
  c9_amended_payload_ids.1 (EventPayload.invoicePaid 4) (EventPayload.invoicePaid 4)
    rfl rfl rfl

/-- Deleting an invoice's rates order-by-order never touches the
payment-intent↔invoice links. -/
theorem foldl_ratesDelete_pii (l : List RawOrder) (s : Db) :
    (l.foldl (fun st o => ratesDeleteByOrderId o.id st) s).payment_intent_invoices =
      s.payment_intent_invoices := by
  induction l generalizing s with
  | nil => rfl
  | cons o rest ih =>
    rw [List.foldl_cons, ih]
    rfl

/-- C10: delete_invoice_by_saga_id_v2 fails — and its transaction rolls the
ledger back to the entry state — whenever no payment_intent_invoice record
is linked to the invoice; in particular every crypto-flow invoice (which has
no payment intent) can never be deleted by it. -/
theorem c10_delete_requires_payment_intent_link (s : Db) (id : InvoiceId)
    (h : paymentIntentInvoicesGetByInvoiceId s id = none) :
    deleteInvoiceBySagaIdV2 id s = (Except.error ErrorKind.internal, s) := by
  unfold deleteInvoiceBySagaIdV2 transaction
  have hpii :
      Db.payment_intent_invoices
        (List.foldl (fun st o => ratesDeleteByOrderId o.id st)
          (ordersDeleteByInvoiceId id s).2 (ordersDeleteByInvoiceId id s).1) =
      s.payment_intent_invoices := by
    rw [foldl_ratesDelete_pii]
    rfl
  have hlook :
      paymentIntentInvoicesGetByInvoiceId
        (List.foldl (fun st o => ratesDeleteByOrderId o.id st)
          (ordersDeleteByInvoiceId id s).2 (ordersDeleteByInvoiceId id s).1) id =
        none := by
    unfold paymentIntentInvoicesGetByInvoiceId at h ⊢
    rw [hpii]
    exact h
  simp only [hlook]

theorem c10_delete_requires_payment_intent_link_witness :
    paymentIntentInvoicesGetByInvoiceId dbUnpaidW 1 = none ∧
    deleteInvoiceBySagaIdV2 1 dbUnpaidW = (Except.error ErrorKind.internal, dbUnpaidW) :=
  ⟨rfl, c10_delete_requires_payment_intent_link dbUnpaidW 1 rfl⟩

/-- C7 fails on the code: for a 1-STQ order (10^18 wei) at rate 1 under an
EUR buyer, payment_intent_create_params produces the raw minor-unit quotient
10^18 as the intent amount, whereas the claimed computation — seller
super-units divided by the rate, converted to the buyer currency's minor
unit — gives 100 cents. -/
theorem c7_counterexample :
    paymentIntentCreateParams [(noStqW, none, 1)] Currency.eur =
      Except.ok
        { allowed_source_types := [PaymentIntentSourceType.card]
          amount := 10 ^ 18
          currency := Currency.eur
          capture_method := some CaptureMethod.automatic } ∧
    paymentIntentAmountSpec [(noStqW, none, 1)] Currency.eur = 100 ∧
    (10 ^ 18 : Nat) ≠ 100 := by
  refine ⟨by decide, by decide, by decide⟩

/-- C7 (amended): payment_intent_create_params computes the exchanged amount
as the sum over the orders of the raw total_amount in seller minor units
divided by the order's exchange rate (as BigDecimal), truncates that sum to
an unsigned 64-bit integer (failure yields an Internal error), and builds
the payment intent with that amount, the buyer currency,
allowed_source_types = [Card] and capture_method = Automatic. -/
theorem c7_amended_payment_intent_params (orders : List (NewOrder × Option ExchangeId × Rat))
    (buyer_currency : Currency) :
    paymentIntentCreateParams orders buyer_currency =
      match toU64 (ratSum (orders.map (fun p => ratDiv (p.1.total_amount : Rat) p.2.2))) with
      | none => Except.error ErrorKind.internal
      | some amount =>
        match tryIntoStripeCurrency buyer_currency with
        | none => Except.error ErrorKind.internal
        | some c =>
          Except.ok
            { allowed_source_types := [PaymentIntentSourceType.card]
              amount := amount
              currency := c
              capture_method := some CaptureMethod.automatic } := by
  unfold paymentIntentCreateParams ratSum
  rfl

/-- C3: for an unpaid invoice, the recompute-and-maybe-finalize step marks
the invoice paid — storing final_amount_paid = total_price in buyer minor
units, the cashback in STQ minor units and paid_at = now, and enqueueing
exactly one InvoicePaid event — precisely when has_missing_rates is false
and the captured amount in super-units reaches the total price; otherwise it
returns the dump and leaves the ledger unchanged. -/
theorem c3_paid_transition (now : Nat) (id : InvoiceId) (s : Db) (inv : RawInvoice)
    (dump : InvoiceDump) (h1 : invoicesGet s id = some inv) (h2 : inv.paid_at = none)
    (h3 : getInvoicePrice s inv = Except.ok dump) :
    (dump.has_missing_rates = false ∧
        dump.total_price ≤ toSuperUnit inv.buyer_currency inv.amount_captured →
      calcAndSetFinalIfPaid now id s =
        (Except.ok dump,
          addEvent (EventPayload.invoicePaid inv.id)
            (setAmountPaid inv.id
              { final_amount_paid := fromSuperUnit dump.buyer_currency dump.total_price
                final_cashback_amount := fromSuperUnit Currency.stq (dump.total_cashback.getD 0)
                paid_at := now } s))) ∧
    (¬ (dump.has_missing_rates = false ∧
        dump.total_price ≤ toSuperUnit inv.buyer_currency inv.amount_captured) →
      calcAndSetFinalIfPaid now id s = (Except.ok dump, s)) := by
  unfold calcAndSetFinalIfPaid transaction
  constructor
  · intro hc
    simp [h1, h3, h2, hc]
  · intro hc
    simp [h1, h3, h2, hc]

theorem c3_paid_transition_witness :
    calcAndSetFinalIfPaid 99 1 dbUnpaidW =
      (Except.ok dumpW,
        addEvent (EventPayload.invoicePaid 1)
          (setAmountPaid 1
            { final_amount_paid := fromSuperUnit dumpW.buyer_currency dumpW.total_price
              final_cashback_amount := fromSuperUnit Currency.stq (dumpW.total_cashback.getD 0)
              paid_at := 99 } dbUnpaidW)) :=
  (c3_paid_transition 99 1 dbUnpaidW invCapturedW dumpW rfl rfl rfl).1 (by decide)

/-- The identity transformation is monotone-paid safe. -/
theorem paidOk_id : PaidOk id :=
  fun _ => ⟨rfl, rfl, fun _ => ⟨rfl, rfl, rfl⟩⟩

/-- Monotone-paid-safe transformations compose. -/
theorem paidOk_comp {f g : RawInvoice → RawInvoice} (hf : PaidOk f) (hg : PaidOk g) :
    PaidOk (fun i => f (g i)) := by
  intro i
  obtain ⟨hg1, hg2, hg3⟩ := hg i
  obtain ⟨hf1, hf2, hf3⟩ := hf (g i)
  refine ⟨hf1.trans hg1, hf2.trans hg2, fun hp => ?_⟩
  obtain ⟨ha, hb, hc⟩ := hg3 hp
  have hp2 : (g i).paid_at.isSome = true := by rw [hc]; exact hp
  obtain ⟨hd, he, hfa⟩ := hf3 hp2
  exact ⟨hd.trans ha, he.trans hb, hfa.trans hc⟩

/-- Crediting a captured amount never touches the paid fields. -/
theorem paidOk_incSetF (invid : InvoiceId) (amt : Amount) : PaidOk (incSetF invid amt) := by
  intro i
  unfold incSetF
  split <;> exact ⟨rfl, rfl, fun _ => ⟨rfl, rfl, rfl⟩⟩

/-- Freezing final amounts only rewrites rows whose paid_at is unset. -/
theorem paidOk_paidSetF (id : InvoiceId) (input : InvoiceSetAmountPaid) :
    PaidOk (paidSetF id input) := by
  intro i
  unfold paidSetF
  split
  · rename_i h
    refine ⟨rfl, rfl, fun hp => ?_⟩
    have hnone := (Bool.and_eq_true _ _).mp h |>.2
    rw [Option.isNone_iff_eq_none] at hnone
    rw [hnone] at hp
    cases hp
  · exact ⟨rfl, rfl, fun _ => ⟨rfl, rfl, rfl⟩⟩

/-- Persisting refreshed rates changes only the rate table and its counter. -/
theorem saveNewRates_fields (nrs : List NewOrderExchangeRate) (s : Db) :
    (saveNewRates nrs s).invoices = s.invoices ∧
    (saveNewRates nrs s).accounts = s.accounts ∧
    (saveNewRates nrs s).events = s.events ∧
    (saveNewRates nrs s).applied_txs = s.applied_txs ∧
    (saveNewRates nrs s).orders = s.orders := by
  induction nrs generalizing s with
  | nil => exact ⟨rfl, rfl, rfl, rfl, rfl⟩
  | cons nr rest ih =>
    have h := ih (addNewActiveRate nr s).2
    unfold saveNewRates at h ⊢
    rw [List.foldl_cons]
    exact h

/-- Outcome of the price-and-maybe-finalize transaction: either the state is
unchanged, or the invoice was unpaid, fully covered with no missing rates,
and the state gained exactly the frozen amounts and one InvoicePaid event. -/
theorem calcAndSet_state (now : Nat) (id : InvoiceId) (s : Db) :
    (calcAndSetFinalIfPaid now id s).2 = s ∨
    ∃ inv dump,
      invoicesGet s id = some inv ∧ inv.paid_at = none ∧
      getInvoicePrice s inv = Except.ok dump ∧
      dump.has_missing_rates = false ∧
      dump.total_price ≤ toSuperUnit inv.buyer_currency inv.amount_captured ∧
      (calcAndSetFinalIfPaid now id s).2 =
        addEvent (EventPayload.invoicePaid inv.id)
          (setAmountPaid inv.id
            { final_amount_paid := fromSuperUnit dump.buyer_currency dump.total_price
              final_cashback_amount := fromSuperUnit Currency.stq (dump.total_cashback.getD 0)
              paid_at := now } s) := by
  unfold calcAndSetFinalIfPaid transaction
  cases hg : invoicesGet s id with
  | none => left; simp [hg]
  | some inv =>
    cases hp : getInvoicePrice s inv with
    | error e => left; simp [hg, hp]
    | ok dump =>
      by_cases hpaid : inv.paid_at.isSome = true
      · left; simp [hg, hp, hpaid]
      · by_cases hcond : dump.has_missing_rates = false ∧
            dump.total_price ≤ toSuperUnit inv.buyer_currency inv.amount_captured
        · right
          refine ⟨inv, dump, rfl, ?_, hp, hcond.1, hcond.2, ?_⟩
          · cases hpa : inv.paid_at with
            | none => rfl
            | some t => rw [hpa] at hpaid; cases hpaid rfl
          · simp [hg, hp, hpaid, hcond]
        · left; simp [hg, hp, hpaid, hcond]

/-- The state after price-and-maybe-finalize is the entry state with the
invoices rewritten by a monotone-paid-safe transformation. -/
theorem calcAndSet_invoices_shape (now : Nat) (iid : InvoiceId) (s : Db) :
    ∃ f, PaidOk f ∧
      (calcAndSetFinalIfPaid now iid s).2.invoices = s.invoices.map f := by
  rcases calcAndSet_state now iid s with h | ⟨inv, dump, _, _, _, _, _, h⟩
  · rw [h]; exact ⟨id, paidOk_id, (List.map_id _).symm⟩
  · rw [h]
    exact ⟨paidSetF inv.id _, paidOk_paidSetF _ _, rfl⟩

/-- Outcome of the recalc that the webhook performs on an unpaid invoice:
either no state change, or a batch of refreshed rates is saved and the
price-and-maybe-finalize transaction runs on top. -/
theorem inboundRecalc_state (oracle : PaymentsOracle) (now : Nat) (inv : RawInvoice)
    (s : Db) :
    (inboundRecalc oracle now inv s).2 = s ∨
    ∃ nrs, (inboundRecalc oracle now inv s).2 =
      (calcAndSetFinalIfPaid now inv.id (saveNewRates nrs s)).2 := by
  unfold inboundRecalc
  cases ht : toTureCurrency inv.buyer_currency with
  | error e => left; rfl
  | ok buyer =>
    cases hr : refreshRates oracle buyer (getOrderActiveRates s inv.id) with
    | error e => left; simp [hr]
    | ok nrs =>
      right
      refine ⟨nrs, ?_⟩
      simp only [hr]
      cases hc : calcAndSetFinalIfPaid now inv.id (saveNewRates nrs s) with
      | mk r st => cases r <;> simp [hc]

/-- Phase 2 of the webhook: skip on a paid row, otherwise the recalc. -/
theorem inboundPhase2_state (oracle : PaymentsOracle) (now : Nat) (inv : RawInvoice)
    (s : Db) :
    (inboundPhase2 oracle now inv s).2 = s ∨
    ∃ nrs, (inboundPhase2 oracle now inv s).2 =
      (calcAndSetFinalIfPaid now inv.id (saveNewRates nrs s)).2 := by
  unfold inboundPhase2
  cases hp : inv.paid_at with
  | some t => left; rfl
  | none => exact inboundRecalc_state oracle now inv s

/-- Phase 2 rewrites the invoices by a monotone-paid-safe transformation. -/
theorem inboundPhase2_invoices_shape (oracle : PaymentsOracle) (now : Nat)
    (inv : RawInvoice) (s : Db) :
    ∃ f, PaidOk f ∧
      (inboundPhase2 oracle now inv s).2.invoices = s.invoices.map f := by
  rcases inboundPhase2_state oracle now inv s with h | ⟨nrs, h⟩
  · rw [h]; exact ⟨id, paidOk_id, (List.map_id _).symm⟩
  · rcases calcAndSet_invoices_shape now inv.id (saveNewRates nrs s) with ⟨f, hf, hinv⟩
    refine ⟨f, hf, ?_⟩
    rw [h, hinv, (saveNewRates_fields nrs s).1]

/-- Case analysis of the first webhook phase: a failure leaves the state
unchanged; otherwise the resolved account carries a linked invoice, and the
captured amount was either credited (fresh transaction id, recorded in
applied_txs) or refused as a duplicate with the current row fetched. -/
theorem inboundPhase1_cases (crypto : Crypto) (pk sig body : Nat)
    (cb : PaymentsCallback) (s : Db) :
    (∃ e, inboundPhase1 crypto pk sig body cb s = (Except.error e, s)) ∨
    ∃ aid amt inv,
      resolveAccountId cb s = Except.ok aid ∧
      cb.amount_captured = some amt ∧
      invoicesGetByAccountId s aid = some inv ∧
      (((aid, cb.transaction_id) ∉ s.applied_txs ∧
          inboundPhase1 crypto pk sig body cb s =
            (Except.ok { inv with amount_captured := inv.amount_captured + amt },
              { s with
                invoices := s.invoices.map (incSetF inv.id amt)
                applied_txs := (aid, cb.transaction_id) :: s.applied_txs })) ∨
        ((aid, cb.transaction_id) ∈ s.applied_txs ∧
          inboundPhase1 crypto pk sig body cb s = (Except.ok inv, s))) := by
  unfold inboundPhase1 checkTureSign
  by_cases hv : crypto.verify pk sig body = true
  · rw [hv]
    simp only [if_true]
    cases hres : resolveAccountId cb s with
    | error e => left; exact ⟨e, rfl⟩
    | ok aid =>
      cases hamt : cb.amount_captured with
      | none => left; exact ⟨ErrorKind.internal, by simp [parseAmount, hamt]⟩
      | some amt =>
        cases hlink : invoicesGetByAccountId s aid with
        | none => left; exact ⟨ErrorKind.notFound, by simp [parseAmount, hamt, hlink]⟩
        | some inv =>
          right
          refine ⟨aid, amt, inv, rfl, rfl, hlink, ?_⟩
          by_cases hmem : (aid, cb.transaction_id) ∈ s.applied_txs
          · right
            refine ⟨hmem, ?_⟩
            simp [parseAmount, hamt, hlink, increaseOrFetch, increaseAmountCaptured, hmem]
          · left
            refine ⟨hmem, ?_⟩
            simp [parseAmount, hamt, hlink, increaseOrFetch, increaseAmountCaptured, hmem]
  · left
    refine ⟨ErrorKind.forbidden, ?_⟩
    simp [hv]

/-- The swallow of NotFound outcomes never changes the state. -/
theorem swallowNotFound_state (r : DbRes Unit) : (swallowNotFound r).2 = r.2 := by
  obtain ⟨r1, st⟩ := r
  cases r1 with
  | ok u => rfl
  | error e => cases e <;> rfl

/-- The handler's final state is phase 1's state, refined by phase 2 when
phase 1 produced an invoice. -/
theorem handleInboundTx_state (crypto : Crypto) (oracle : PaymentsOracle) (now : Nat)
    (pk sig body : Nat) (cb : PaymentsCallback) (s : Db) :
    (handleInboundTx crypto oracle now pk sig body cb s).2 =
      (match inboundPhase1 crypto pk sig body cb s with
       | (Except.error _, s1) => s1
       | (Except.ok inv, s1) => (inboundPhase2 oracle now inv s1).2) := by
  unfold handleInboundTx
  rw [swallowNotFound_state]
  cases h : inboundPhase1 crypto pk sig body cb s with
  | mk r s1 => cases r <;> rfl

/-- One webhook delivery rewrites the invoices by a monotone-paid-safe
transformation: ids and account links are kept, and the finals and paid_at
of every already-paid row are untouched. -/
theorem handle_invoices_shape (crypto : Crypto) (oracle : PaymentsOracle) (now : Nat)
    (pk sig body : Nat) (cb : PaymentsCallback) (s : Db) :
    ∃ f, PaidOk f ∧
      (handleInboundTx crypto oracle now pk sig body cb s).2.invoices =
        s.invoices.map f := by
  rw [handleInboundTx_state]
  rcases inboundPhase1_cases crypto pk sig body cb s with ⟨e, hp⟩ |
    ⟨aid, amt, inv, hres, hamt, hlink, ⟨hmem, hp⟩ | ⟨hmem, hp⟩⟩
  · rw [hp]; exact ⟨id, paidOk_id, (List.map_id _).symm⟩
  · rw [hp]
    rcases inboundPhase2_invoices_shape oracle now
        { inv with amount_captured := inv.amount_captured + amt }
        { s with
          invoices := s.invoices.map (incSetF inv.id amt)
          applied_txs := (aid, cb.transaction_id) :: s.applied_txs } with ⟨f, hf, hinv⟩
    refine ⟨fun i => f (incSetF inv.id amt i),
      paidOk_comp hf (paidOk_incSetF inv.id amt), ?_⟩
    rw [hinv]
    exact List.map_map f (incSetF inv.id amt) s.invoices
  · rw [hp]
    exact inboundPhase2_invoices_shape oracle now inv s

/-- C2: once paid_at is set, recalculation changes nothing: recalc_invoice_v2
returns the stored prices computed from the existing rates with the ledger
untouched; calculate_invoice_price_and_set_final_price_if_paid returns the
dump with the ledger untouched; and handle_inbound_tx never changes the
final_amount_paid, final_cashback_amount or paid_at of any paid invoice
row. -/
theorem c2_monotone_paid (oracle : PaymentsOracle) (now : Nat) (id : InvoiceId)
    (s : Db) (inv : RawInvoice) (t : Nat)
    (h1 : invoicesGet s id = some inv) (h2 : inv.paid_at = some t) :
    (∀ w, walletLookup s inv = Except.ok w →
      recalcInvoiceV2 oracle now id s =
        (Except.ok (some (calculateInvoicePrice inv
          ((getOrderActiveRates s id).map (fun p => (p.1, p.2.toList))) w)), s)) ∧
    (∀ dump, getInvoicePrice s inv = Except.ok dump →
      calcAndSetFinalIfPaid now id s = (Except.ok dump, s)) ∧
    (∀ crypto pk sig body cb, ∃ f, PaidOk f ∧
      (handleInboundTx crypto oracle now pk sig body cb s).2.invoices =
        s.invoices.map f) := by
  refine ⟨?_, ?_, ?_⟩
  · intro w hw
    unfold recalcInvoiceV2
    simp [h1, hw, h2]
  · intro dump hdump
    unfold calcAndSetFinalIfPaid transaction
    simp [h1, hdump, h2]
  · intro crypto pk sig body cb
    exact handle_invoices_shape crypto oracle now pk sig body cb s

theorem c2_monotone_paid_witness :
    recalcInvoiceV2 oracleW 99 1 dbPaidW =
      (Except.ok (some (calculateInvoicePrice invPaidW
        ((getOrderActiveRates dbPaidW 1).map (fun p => (p.1, p.2.toList))) (some 42))),
       dbPaidW) :=
  (c2_monotone_paid oracleW 99 1 dbPaidW invPaidW 31 rfl rfl).1 (some 42) rfl

/-- Creating an order row touches only the orders table. -/
theorem ordersCreate_fields (no : NewOrder) (s : Db) :
    (ordersCreate no s).2.invoices = s.invoices ∧
    (ordersCreate no s).2.events = s.events := by
  unfold ordersCreate
  split <;> exact ⟨rfl, rfl⟩

/-- The order/rate insertion loop touches neither invoices nor events. -/
theorem insertOrdersWithRates_fields (priced : List (NewOrder × Option ExchangeId × Rat))
    (s : Db) :
    (insertOrdersWithRates priced s).2.invoices = s.invoices ∧
    (insertOrdersWithRates priced s).2.events = s.events := by
  induction priced generalizing s with
  | nil => exact ⟨rfl, rfl⟩
  | cons p rest ih =>
    unfold insertOrdersWithRates
    cases hoc : ordersCreate p.1 s with
    | mk r s1 =>
      have hof := ordersCreate_fields p.1 s
      rw [hoc] at hof
      cases r with
      | error e => exact hof
      | ok order =>
        have ih2 := ih (addNewActiveRate
          { order_id := p.1.id, exchange_id := p.2.1, exchange_rate := p.2.2 } s1).2
        simp only []
        cases hrec : insertOrdersWithRates rest (addNewActiveRate
            { order_id := p.1.id, exchange_id := p.2.1, exchange_rate := p.2.2 } s1).2 with
        | mk r2 s2 =>
          rw [hrec] at ih2
          cases r2 <;>
            exact ⟨ih2.1.trans hof.1, ih2.2.trans hof.2⟩

/-- The payment-intent row inserts touch neither invoices nor events. -/
theorem insertPaymentIntentRows_fields
    (rows : Option (NewPaymentIntent × NewPaymentIntentInvoice)) (s : Db) :
    (insertPaymentIntentRows rows s).invoices = s.invoices ∧
    (insertPaymentIntentRows rows s).events = s.events := by
  cases rows <;> exact ⟨rfl, rfl⟩

/-- A freshly appended invoice row is found by its id. -/
theorem invoicesGet_append_isSome (s : Db) (inv : RawInvoice) :
    (invoicesGet { s with invoices := s.invoices ++ [inv] } inv.id).isSome = true := by
  unfold invoicesGet
  rw [List.find?_append]
  cases h : s.invoices.find? (fun i => i.id == inv.id) <;> simp [h, Option.or]

/-- Outcome of create_invoice_v2: a failure before the DB phase leaves the
state unchanged; a failure of the row transaction leaves exactly the
scheduled PaymentExpired entry behind; on success the final state carries
that entry and the invoice row. -/
theorem createInvoiceV2_state (env : CreateEnv) (ci : CreateInvoiceV2) (s : Db) :
    (∃ e, createInvoiceV2 env ci s = (Except.error e, s)) ∨
    (∃ e, createInvoiceV2 env ci s =
      (Except.error e,
        addScheduledEvent (EventPayload.paymentExpired ci.saga_id)
          (env.now +
            (if ci.currency.is_fiat = true then env.payment_expiry.fiat_timeout_min
             else env.payment_expiry.crypto_timeout_min)) s)) ∨
    (∃ d s5, createInvoiceV2 env ci s = (Except.ok d, s5) ∧
      s5.events = s.events ++
        [{ payload := EventPayload.paymentExpired ci.saga_id
           scheduled_for := some (env.now +
             (if ci.currency.is_fiat = true then env.payment_expiry.fiat_timeout_min
              else env.payment_expiry.crypto_timeout_min)) }] ∧
      (invoicesGet s5 ci.saga_id).isSome = true) := by
  unfold createInvoiceV2
  cases hpo : priceOrders env.oracle ci.currency ci.saga_id ci.orders with
  | error e => left; exact ⟨e, rfl⟩
  | ok priced =>
    by_cases hf : ci.currency.is_fiat = true
    all_goals simp only [hpo, hf, if_true, if_false, Bool.false_eq_true, toTureCurrency]
    · -- card flow
      cases hcp : createPaymentIntentStep env priced ci.saga_id ci.currency with
      | error e => left; exact ⟨e, by simp [hcp]⟩
      | ok rows =>
        simp only [hcp]
        unfold transaction
        cases hic : invoicesCreate
            { id := ci.saga_id, buyer_user_id := ci.customer_id
              buyer_currency := ci.currency, amount_captured := 0
              account_id := none, final_amount_paid := none
              final_cashback_amount := none, paid_at := none }
            (addScheduledEvent (EventPayload.paymentExpired ci.saga_id)
              (env.now + env.payment_expiry.fiat_timeout_min) s) with
        | mk ric sic =>
          have hicf := hic
          unfold invoicesCreate at hicf
          cases ric with
          | error e =>
            right; left
            refine ⟨e, ?_⟩
            simp [hic, hf]
          | ok invr =>
            split at hicf
            · cases hicf
            · injection hicf with h1 h2
              cases h1
              cases hio : insertOrdersWithRates priced (insertPaymentIntentRows (some rows) sic) with
              | mk rio sio =>
                have hiof := insertOrdersWithRates_fields priced (insertPaymentIntentRows (some rows) sic)
                rw [hio] at hiof
                have hpif := insertPaymentIntentRows_fields (some rows) sic
                cases rio with
                | error e =>
                  right; left
                  refine ⟨e, ?_⟩
                  simp [hic, hio, hf]
                | ok owr =>
                  right; right
                  refine ⟨calculateInvoicePrice
                      { id := ci.saga_id, buyer_user_id := ci.customer_id
                        buyer_currency := ci.currency, amount_captured := 0
                        account_id := none, final_amount_paid := none
                        final_cashback_amount := none, paid_at := none } owr none,
                    sio, ?_, ?_, ?_⟩
                  · simp only [hic, hio]
                  · rw [hiof.2, hpif.2, ← h2]
                    simp [hf, addScheduledEvent]
                  · have : (invoicesGet sic ci.saga_id).isSome = true := by
                      rw [← h2]
                      exact invoicesGet_append_isSome _ _
                    unfold invoicesGet at this ⊢
                    rw [hiof.1, hpif.1]
                    exact this
    · -- crypto flow
      unfold transaction
      cases hic : invoicesCreate
          { id := ci.saga_id, buyer_user_id := ci.customer_id
            buyer_currency := ci.currency, amount_captured := 0
            account_id := some (env.pooledAccount ci.currency).1
            final_amount_paid := none, final_cashback_amount := none, paid_at := none }
          (addScheduledEvent (EventPayload.paymentExpired ci.saga_id)
            (env.now + env.payment_expiry.crypto_timeout_min) s) with
      | mk ric sic =>
        have hicf := hic
        unfold invoicesCreate at hicf
        cases ric with
        | error e =>
          right; left
          refine ⟨e, ?_⟩
          simp [hic, hf]
        | ok invr =>
          split at hicf
          · cases hicf
          · injection hicf with h1 h2
            cases h1
            cases hio : insertOrdersWithRates priced (insertPaymentIntentRows none sic) with
            | mk rio sio =>
              have hiof := insertOrdersWithRates_fields priced (insertPaymentIntentRows none sic)
              rw [hio] at hiof
              have hpif := insertPaymentIntentRows_fields none sic
              cases rio with
              | error e =>
                right; left
                refine ⟨e, ?_⟩
                simp [hic, hio, hf]
              | ok owr =>
                right; right
                refine ⟨calculateInvoicePrice
                    { id := ci.saga_id, buyer_user_id := ci.customer_id
                      buyer_currency := ci.currency, amount_captured := 0
                      account_id := some (env.pooledAccount ci.currency).1
                      final_amount_paid := none, final_cashback_amount := none
                      paid_at := none } owr (some (env.pooledAccount ci.currency).2),
                  sio, ?_, ?_, ?_⟩
                · simp only [hic, hio]
                · rw [hiof.2, hpif.2, ← h2]
                  simp [hf, addScheduledEvent]
                · have : (invoicesGet sic ci.saga_id).isSome = true := by
                    rw [← h2]
                    exact invoicesGet_append_isSome _ _
                  unfold invoicesGet at this ⊢
                  rw [hiof.1, hpif.1]
                  exact this

/-- C6 fails on the code: re-using a taken invoice id makes the row
transaction fail, yet the scheduled PaymentExpired entry persists (it was
inserted before the transaction opened), while invoice, order, rate and
payment-intent rows are all rolled back — so the event entry and the rows
are not atomic as claimed. -/
theorem c6_counterexample :
    (createInvoiceV2 envW ciDupW dbEurInvW).1 = Except.error ErrorKind.constraints ∧
    (createInvoiceV2 envW ciDupW dbEurInvW).2.events =
      dbEurInvW.events ++
        [{ payload := EventPayload.paymentExpired 1, scheduled_for := some 65 }] ∧
    (createInvoiceV2 envW ciDupW dbEurInvW).2.invoices = dbEurInvW.invoices ∧
    (createInvoiceV2 envW ciDupW dbEurInvW).2.orders = dbEurInvW.orders ∧
    (createInvoiceV2 envW ciDupW dbEurInvW).2.rates = dbEurInvW.rates ∧
    (createInvoiceV2 envW ciDupW dbEurInvW).2.payment_intents =
      dbEurInvW.payment_intents := by
  refine ⟨by decide, by decide, by decide, by decide, by decide, by decide⟩

/-- C6 (amended): in create_invoice_v2 the PaymentExpired EventEntry — with
scheduled_for = now + fiat_timeout_min for the card flow or
now + crypto_timeout_min for the crypto flow, from config — is inserted
immediately before the DB transaction; the invoice row, payment-intent rows,
order rows and their initial active rates are inserted within that one
transaction, so those rows persist or vanish together, but on a failed
transaction the already-inserted event entry remains behind. -/
theorem c6_amended_scheduling (env : CreateEnv) (ci : CreateInvoiceV2) (s : Db) :
    (∀ d s5, createInvoiceV2 env ci s = (Except.ok d, s5) →
      s5.events = s.events ++
        [{ payload := EventPayload.paymentExpired ci.saga_id
           scheduled_for := some (env.now +
             (if ci.currency.is_fiat = true then env.payment_expiry.fiat_timeout_min
              else env.payment_expiry.crypto_timeout_min)) }] ∧
      (invoicesGet s5 ci.saga_id).isSome = true) ∧
    (∀ e s5, createInvoiceV2 env ci s = (Except.error e, s5) →
      s5.invoices = s.invoices ∧ s5.orders = s.orders ∧ s5.rates = s.rates ∧
      s5.payment_intents = s.payment_intents ∧
      s5.payment_intent_invoices = s.payment_intent_invoices ∧
      (s5.events = s.events ∨
        s5.events = s.events ++
          [{ payload := EventPayload.paymentExpired ci.saga_id
             scheduled_for := some (env.now +
               (if ci.currency.is_fiat = true then env.payment_expiry.fiat_timeout_min
                else env.payment_expiry.crypto_timeout_min)) }])) := by
  constructor
  · intro d s5 h
    rcases createInvoiceV2_state env ci s with ⟨e, heq⟩ | ⟨e, heq⟩ | ⟨d2, s52, heq, hev, hget⟩
    · rw [h] at heq; simp at heq
    · rw [h] at heq; simp at heq
    · rw [h] at heq
      injection heq with hq1 hq2
      subst hq2
      exact ⟨hev, hget⟩
  · intro e s5 h
    rcases createInvoiceV2_state env ci s with ⟨e2, heq⟩ | ⟨e2, heq⟩ | ⟨d2, s52, heq, hev, hget⟩
    · rw [h] at heq
      injection heq with hq1 hq2
      subst hq2
      exact ⟨rfl, rfl, rfl, rfl, rfl, Or.inl rfl⟩
    · rw [h] at heq
      injection heq with hq1 hq2
      subst hq2
      exact ⟨rfl, rfl, rfl, rfl, rfl, Or.inr rfl⟩
    · rw [h] at heq; simp at heq

theorem c6_amended_scheduling_witness :
    (createInvoiceV2 envW ciFreshW dbEmpty).2.events =
      dbEmpty.events ++
        [{ payload := EventPayload.paymentExpired 2, scheduled_for := some 65 }] ∧
    (invoicesGet (createInvoiceV2 envW ciFreshW dbEmpty).2 2).isSome = true := by
  cases hc : createInvoiceV2 envW ciFreshW dbEmpty with
  | mk r s5 =>
    cases r with
    | error e =>
      exfalso
      have hok : (createInvoiceV2 envW ciFreshW dbEmpty).1.isOk = true := by decide
      rw [hc] at hok
      simp [Except.isOk, Except.toBool] at hok
    | ok d =>
      have h := (c6_amended_scheduling envW ciFreshW dbEmpty).1 d s5 hc
      have h1 := h.1
      simp only [envW, ciFreshW, Currency.is_fiat, if_true] at h1
      exact ⟨by simpa using h1, h.2⟩

/-- Peeling the handler at a failing phase 1. -/
theorem handle_state_err (crypto : Crypto) (oracle : PaymentsOracle) (now : Nat)
    (pk sig body : Nat) (cb : PaymentsCallback) (s : Db) (e : ErrorKind) (s1 : Db)
    (hp : inboundPhase1 crypto pk sig body cb s = (Except.error e, s1)) :
    (handleInboundTx crypto oracle now pk sig body cb s).2 = s1 := by
  rw [handleInboundTx_state, hp]

/-- Peeling the handler at a successful phase 1. -/
theorem handle_state_ok (crypto : Crypto) (oracle : PaymentsOracle) (now : Nat)
    (pk sig body : Nat) (cb : PaymentsCallback) (s : Db) (inv : RawInvoice) (s1 : Db)
    (hp : inboundPhase1 crypto pk sig body cb s = (Except.ok inv, s1)) :
    (handleInboundTx crypto oracle now pk sig body cb s).2 =
      (inboundPhase2 oracle now inv s1).2 := by
  rw [handleInboundTx_state, hp]

/-- Account resolution only reads the accounts table. -/
theorem resolveAccountId_congr (cb : PaymentsCallback) {s sp : Db}
    (h : sp.accounts = s.accounts) :
    resolveAccountId cb sp = resolveAccountId cb s := by
  unfold resolveAccountId accountsGetByWalletAddress
  rw [h]

/-- Invoice lookup by account only reads the invoices table. -/
theorem getByAccountId_congr {s sp : Db} (h : sp.invoices = s.invoices) (aid : AccountId) :
    invoicesGetByAccountId sp aid = invoicesGetByAccountId s aid := by
  unfold invoicesGetByAccountId
  rw [h]

/-- Invoice lookup by account commutes with an account-preserving pointwise
rewrite of the rows. -/
theorem getByAccountId_map_state {s sp : Db} (f : RawInvoice → RawInvoice)
    (hinv : sp.invoices = s.invoices.map f)
    (hf : ∀ i, (f i).account_id = i.account_id) (aid : AccountId) :
    invoicesGetByAccountId sp aid = (invoicesGetByAccountId s aid).map f := by
  unfold invoicesGetByAccountId
  have hp : ((fun i => i.account_id == some aid) ∘ f) =
      (fun i : RawInvoice => i.account_id == some aid) := by
    funext i
    simp [Function.comp, hf i]
  rw [hinv, List.find?_map, hp]

/-- A found invoice row carries the id it was looked up by. -/
theorem invoicesGet_some_id {s : Db} {iid : InvoiceId} {r : RawInvoice}
    (h : invoicesGet s iid = some r) : r.id = iid := by
  unfold invoicesGet at h
  have := List.find?_some h
  simpa using this

/-- The price-and-maybe-finalize transaction never touches the accounts,
the applied-transactions log, the orders or the rates. -/
theorem calcAndSet_fields (now : Nat) (iid : InvoiceId) (s : Db) :
    (calcAndSetFinalIfPaid now iid s).2.accounts = s.accounts ∧
    (calcAndSetFinalIfPaid now iid s).2.applied_txs = s.applied_txs := by
  rcases calcAndSet_state now iid s with h | ⟨inv, dump, _, _, _, _, _, h⟩ <;> rw [h] <;>
    exact ⟨rfl, rfl⟩

/-- A pointwise rewrite of rows that keeps ids and captured amounts keeps
the amounts table. -/
theorem amountsMap_map (l : List RawInvoice) (f : RawInvoice → RawInvoice)
    (hf : ∀ i, (f i).id = i.id ∧ (f i).amount_captured = i.amount_captured) :
    (l.map f).map (fun i => (i.id, i.amount_captured)) =
      l.map (fun i => (i.id, i.amount_captured)) := by
  rw [List.map_map]
  exact List.map_congr_left (fun i _ => by simp [Function.comp, (hf i).1, (hf i).2])

/-- The price-and-maybe-finalize transaction never changes any invoice's
captured amount. -/
theorem calcAndSet_amounts (now : Nat) (iid : InvoiceId) (s : Db) :
    amountsMap (calcAndSetFinalIfPaid now iid s).2 = amountsMap s := by
  rcases calcAndSet_state now iid s with h | ⟨inv, dump, _, _, _, _, _, h⟩
  · rw [h]
  · rw [h]
    unfold amountsMap addEvent setAmountPaid
    exact amountsMap_map _ _ (fun i => by unfold paidSetF; split <;> exact ⟨rfl, rfl⟩)

/-- Phase 2 never touches accounts or the applied-transactions log. -/
theorem inboundPhase2_fields (oracle : PaymentsOracle) (now : Nat) (inv : RawInvoice)
    (s : Db) :
    (inboundPhase2 oracle now inv s).2.accounts = s.accounts ∧
    (inboundPhase2 oracle now inv s).2.applied_txs = s.applied_txs := by
  rcases inboundPhase2_state oracle now inv s with h | ⟨nrs, h⟩ <;> rw [h]
  · exact ⟨rfl, rfl⟩
  · constructor
    · rw [(calcAndSet_fields now inv.id (saveNewRates nrs s)).1]
      exact (saveNewRates_fields nrs s).2.1
    · rw [(calcAndSet_fields now inv.id (saveNewRates nrs s)).2]
      exact (saveNewRates_fields nrs s).2.2.2.1

/-- Phase 2 never changes any invoice's captured amount. -/
theorem inboundPhase2_amounts (oracle : PaymentsOracle) (now : Nat) (inv : RawInvoice)
    (s : Db) :
    amountsMap (inboundPhase2 oracle now inv s).2 = amountsMap s := by
  rcases inboundPhase2_state oracle now inv s with h | ⟨nrs, h⟩
  · rw [h]
  · rw [h, calcAndSet_amounts]
    unfold amountsMap
    rw [(saveNewRates_fields nrs s).1]

/-- Phase 2 skips entirely on a paid invoice row. -/
theorem inboundPhase2_paid (oracle : PaymentsOracle) (now : Nat) (inv : RawInvoice)
    (s : Db) (h : inv.paid_at.isSome = true) :
    inboundPhase2 oracle now inv s = (Except.ok (), s) := by
  unfold inboundPhase2
  cases hp : inv.paid_at with
  | none => rw [hp] at h; cases h
  | some t => rfl

/-- The handler never touches the accounts table. -/
theorem handle_accounts (crypto : Crypto) (oracle : PaymentsOracle) (now : Nat)
    (pk sig body : Nat) (cb : PaymentsCallback) (s : Db) :
    (handleInboundTx crypto oracle now pk sig body cb s).2.accounts = s.accounts := by
  rcases inboundPhase1_cases crypto pk sig body cb s with ⟨e, hp⟩ |
    ⟨aid, amt, inv, hres, hamt, hlink, ⟨hmem, hp⟩ | ⟨hmem, hp⟩⟩
  · rw [handle_state_err crypto oracle now pk sig body cb s e s hp]
  · rw [handle_state_ok crypto oracle now pk sig body cb s _ _ hp]
    exact (inboundPhase2_fields _ _ _ _).1
  · rw [handle_state_ok crypto oracle now pk sig body cb s _ _ hp]
    exact (inboundPhase2_fields _ _ _ _).1

/-- The applied-transactions log only grows under the handler. -/
theorem handle_applied_mono (crypto : Crypto) (oracle : PaymentsOracle) (now : Nat)
    (pk sig body : Nat) (cb : PaymentsCallback) (s : Db)
    (x : AccountId × TransactionId) (hx : x ∈ s.applied_txs) :
    x ∈ (handleInboundTx crypto oracle now pk sig body cb s).2.applied_txs := by
  rcases inboundPhase1_cases crypto pk sig body cb s with ⟨e, hp⟩ |
    ⟨aid, amt, inv, hres, hamt, hlink, ⟨hmem, hp⟩ | ⟨hmem, hp⟩⟩
  · rw [handle_state_err crypto oracle now pk sig body cb s e s hp]
    exact hx
  · rw [handle_state_ok crypto oracle now pk sig body cb s _ _ hp]
    rw [(inboundPhase2_fields _ _ _ _).2]
    exact List.mem_cons_of_mem _ hx
  · rw [handle_state_ok crypto oracle now pk sig body cb s _ _ hp]
    rw [(inboundPhase2_fields _ _ _ _).2]
    exact hx

/-- Under a hopeless callback — unresolvable account, malformed amount, or
no linked invoice — the handler leaves the state untouched. -/
theorem handle_noop (crypto : Crypto) (oracle : PaymentsOracle) (now : Nat)
    (pk sig body : Nat) (cb : PaymentsCallback) (s : Db)
    (h : (∃ e, resolveAccountId cb s = Except.error e) ∨ cb.amount_captured = none ∨
      (∃ aid, resolveAccountId cb s = Except.ok aid ∧ invoicesGetByAccountId s aid = none)) :
    (handleInboundTx crypto oracle now pk sig body cb s).2 = s := by
  rcases inboundPhase1_cases crypto pk sig body cb s with ⟨e, hp⟩ |
    ⟨aid, amt, inv, hres, hamt, hlink, hbr⟩
  · exact handle_state_err crypto oracle now pk sig body cb s e s hp
  · exfalso
    rcases h with ⟨e, he⟩ | hnone | ⟨aid2, hres2, hlink2⟩
    · rw [hres] at he; cases he
    · rw [hamt] at hnone; cases hnone
    · have heq : aid2 = aid := Except.ok.inj (hres2.symm.trans hres)
      subst heq
      rw [hlink] at hlink2
      cases hlink2

/-- The paid-event count only reads the journal. -/
theorem invoicePaidCount_congr {s sp : Db} (h : sp.events = s.events) :
    invoicePaidCount sp = invoicePaidCount s := by
  unfold invoicePaidCount
  rw [h]

/-- Appending an InvoicePaid entry raises the paid-event count by one. -/
theorem invoicePaidCount_addEvent_paid (x : InvoiceId) (s : Db) :
    invoicePaidCount (addEvent (EventPayload.invoicePaid x) s) = invoicePaidCount s + 1 := by
  unfold invoicePaidCount addEvent
  rw [List.countP_append]
  simp [List.countP_cons]

/-- Phase 1 under a verified signature, a resolved account, a parsed amount
and a linked invoice: a fresh transaction id credits the row and records the
pair; a duplicate is refused and the current row fetched. -/
theorem inboundPhase1_ok (crypto : Crypto) (pk sig body : Nat) (cb : PaymentsCallback)
    (s : Db) (aid : AccountId) (amt : Nat) (inv : RawInvoice)
    (hv : crypto.verify pk sig body = true)
    (hres : resolveAccountId cb s = Except.ok aid)
    (hamt : cb.amount_captured = some amt)
    (hlink : invoicesGetByAccountId s aid = some inv) :
    ((aid, cb.transaction_id) ∉ s.applied_txs ∧
      inboundPhase1 crypto pk sig body cb s =
        (Except.ok { inv with amount_captured := inv.amount_captured + amt },
          { s with
            invoices := s.invoices.map (incSetF inv.id amt)
            applied_txs := (aid, cb.transaction_id) :: s.applied_txs })) ∨
    ((aid, cb.transaction_id) ∈ s.applied_txs ∧
      inboundPhase1 crypto pk sig body cb s = (Except.ok inv, s)) := by
  unfold inboundPhase1 checkTureSign
  rw [hv]
  simp only [if_true, hres]
  by_cases hmem : (aid, cb.transaction_id) ∈ s.applied_txs
  · right
    refine ⟨hmem, ?_⟩
    simp [parseAmount, hamt, hlink, increaseOrFetch, increaseAmountCaptured, hmem]
  · left
    refine ⟨hmem, ?_⟩
    simp [parseAmount, hamt, hlink, increaseOrFetch, increaseAmountCaptured, hmem]

/-- A delivery whose (account, transaction) pair is already recorded leaves
every invoice's captured amount unchanged. -/
theorem handle_amounts_applied (crypto : Crypto) (oracle : PaymentsOracle) (now : Nat)
    (pk sig body : Nat) (cb : PaymentsCallback) (s : Db) (aid : AccountId)
    (hres : resolveAccountId cb s = Except.ok aid)
    (hmem : (aid, cb.transaction_id) ∈ s.applied_txs) :
    amountsMap (handleInboundTx crypto oracle now pk sig body cb s).2 = amountsMap s := by
  rcases inboundPhase1_cases crypto pk sig body cb s with ⟨e, hp⟩ |
    ⟨aid2, amt, inv, hres2, hamt, hlink, hbr⟩
  · rw [handle_state_err crypto oracle now pk sig body cb s e s hp]
  · have heq : aid2 = aid := Except.ok.inj (hres2.symm.trans hres)
    subst heq
    rcases hbr with ⟨hnmem, hp⟩ | ⟨hmem2, hp⟩
    · exact absurd hmem hnmem
    · rw [handle_state_ok crypto oracle now pk sig body cb s _ _ hp]
      exact inboundPhase2_amounts oracle now inv s

/-- After a delivery that reached the capture step, the (account,
transaction) pair is recorded. -/
theorem handle_pair_after (crypto : Crypto) (oracle : PaymentsOracle) (now : Nat)
    (pk sig body : Nat) (cb : PaymentsCallback) (s : Db) (aid : AccountId) (amt : Nat)
    (inv : RawInvoice)
    (hv : crypto.verify pk sig body = true)
    (hres : resolveAccountId cb s = Except.ok aid)
    (hamt : cb.amount_captured = some amt)
    (hlink : invoicesGetByAccountId s aid = some inv) :
    (aid, cb.transaction_id) ∈
      (handleInboundTx crypto oracle now pk sig body cb s).2.applied_txs := by
  rcases inboundPhase1_ok crypto pk sig body cb s aid amt inv hv hres hamt hlink with
    ⟨hnmem, hp⟩ | ⟨hmem, hp⟩
  · rw [handle_state_ok crypto oracle now pk sig body cb s _ _ hp,
      (inboundPhase2_fields _ _ _ _).2]
    exact List.mem_cons_self _ _
  · rw [handle_state_ok crypto oracle now pk sig body cb s _ _ hp,
      (inboundPhase2_fields _ _ _ _).2]
    exact hmem

/-- A delivery to an already-paid linked invoice enqueues nothing, and the
linked invoice stays paid. -/
theorem handle_events_linked_paid (crypto : Crypto) (oracle : PaymentsOracle) (now : Nat)
    (pk sig body : Nat) (cb : PaymentsCallback) (s : Db) (aid : AccountId)
    (inv : RawInvoice)
    (hres : resolveAccountId cb s = Except.ok aid)
    (hlink : invoicesGetByAccountId s aid = some inv)
    (hpaid : inv.paid_at.isSome = true) :
    (handleInboundTx crypto oracle now pk sig body cb s).2.events = s.events ∧
    ∃ inv2, invoicesGetByAccountId
        (handleInboundTx crypto oracle now pk sig body cb s).2 aid = some inv2 ∧
      inv2.paid_at.isSome = true := by
  by_cases hv : crypto.verify pk sig body = true
  · cases hamt : cb.amount_captured with
    | none =>
      have hs := handle_noop crypto oracle now pk sig body cb s (Or.inr (Or.inl hamt))
      rw [hs]
      exact ⟨rfl, inv, hlink, hpaid⟩
    | some amt =>
      rcases inboundPhase1_ok crypto pk sig body cb s aid amt inv hv hres hamt hlink with
        ⟨hnmem, hp⟩ | ⟨hmem, hp⟩
      · rw [handle_state_ok crypto oracle now pk sig body cb s _ _ hp,
          inboundPhase2_paid oracle now
            { inv with amount_captured := inv.amount_captured + amt } _ hpaid]
        refine ⟨rfl, incSetF inv.id amt inv, ?_, ?_⟩
        · rw [getByAccountId_map_state (incSetF inv.id amt) rfl
            (fun i => by unfold incSetF; split <;> rfl) aid, hlink]
          rfl
        · unfold incSetF
          split <;> simpa using hpaid
      · rw [handle_state_ok crypto oracle now pk sig body cb s _ _ hp,
          inboundPhase2_paid oracle now inv s hpaid]
        exact ⟨rfl, inv, hlink, hpaid⟩
  · have hfv : crypto.verify pk sig body = false := by
      cases hcv : crypto.verify pk sig body
      · rfl
      · exact absurd hcv hv
    rw [handle_verify_false crypto oracle now pk sig body cb s hfv]
    exact ⟨rfl, inv, hlink, hpaid⟩

/-- Phase 2, run on the row linked to the resolved account: the paid-event
count grows by at most one, and when it grows the linked invoice has become
paid. -/
theorem inboundPhase2_count (oracle : PaymentsOracle) (now : Nat) (inv : RawInvoice)
    (s : Db) (aid : AccountId)
    (hlink : invoicesGetByAccountId s aid = some inv) :
    invoicePaidCount s ≤ invoicePaidCount (inboundPhase2 oracle now inv s).2 ∧
    invoicePaidCount (inboundPhase2 oracle now inv s).2 ≤ invoicePaidCount s + 1 ∧
    (invoicePaidCount (inboundPhase2 oracle now inv s).2 ≠ invoicePaidCount s →
      ∃ inv2, invoicesGetByAccountId (inboundPhase2 oracle now inv s).2 aid = some inv2 ∧
        inv2.paid_at.isSome = true) := by
  rcases inboundPhase2_state oracle now inv s with h | ⟨nrs, h⟩
  · rw [h]
    exact ⟨le_refl _, Nat.le_succ _, fun hne => absurd rfl hne⟩
  · rw [h]
    rcases calcAndSet_state now inv.id (saveNewRates nrs s) with h3 |
      ⟨inv2, dump, hget2, hnone2, _, _, _, h3⟩
    · rw [h3]
      rw [invoicePaidCount_congr ((saveNewRates_fields nrs s).2.2.1)]
      exact ⟨le_refl _, Nat.le_succ _, fun hne => absurd rfl hne⟩
    · rw [h3]
      have hinv2 : (saveNewRates nrs s).invoices = s.invoices :=
        (saveNewRates_fields nrs s).1
      have hXev : (setAmountPaid inv2.id
          { final_amount_paid := fromSuperUnit dump.buyer_currency dump.total_price
            final_cashback_amount := fromSuperUnit Currency.stq (dump.total_cashback.getD 0)
            paid_at := now } (saveNewRates nrs s)).events = s.events :=
        (saveNewRates_fields nrs s).2.2.1
      have hcnt : invoicePaidCount (addEvent (EventPayload.invoicePaid inv2.id)
          (setAmountPaid inv2.id
            { final_amount_paid := fromSuperUnit dump.buyer_currency dump.total_price
              final_cashback_amount := fromSuperUnit Currency.stq (dump.total_cashback.getD 0)
              paid_at := now } (saveNewRates nrs s))) = invoicePaidCount s + 1 := by
        rw [invoicePaidCount_addEvent_paid]
        exact congrArg (fun n => n + 1) (invoicePaidCount_congr hXev)
      refine ⟨?_, ?_, ?_⟩
      · rw [hcnt]
        exact Nat.le_succ _
      · rw [hcnt]
      · intro hne
        have hmapped : (addEvent (EventPayload.invoicePaid inv2.id)
            (setAmountPaid inv2.id
              { final_amount_paid := fromSuperUnit dump.buyer_currency dump.total_price
                final_cashback_amount := fromSuperUnit Currency.stq (dump.total_cashback.getD 0)
                paid_at := now } (saveNewRates nrs s))).invoices =
            s.invoices.map (paidSetF inv2.id
              { final_amount_paid := fromSuperUnit dump.buyer_currency dump.total_price
                final_cashback_amount := fromSuperUnit Currency.stq (dump.total_cashback.getD 0)
                paid_at := now }) := by
          unfold addEvent setAmountPaid
          rw [hinv2]
        refine ⟨paidSetF inv2.id
            { final_amount_paid := fromSuperUnit dump.buyer_currency dump.total_price
              final_cashback_amount := fromSuperUnit Currency.stq (dump.total_cashback.getD 0)
              paid_at := now } inv, ?_, ?_⟩
        · rw [getByAccountId_map_state _ hmapped
            (fun i => by unfold paidSetF; split <;> rfl) aid, hlink]
          rfl
        · have hid : inv2.id = inv.id := invoicesGet_some_id hget2
          unfold paidSetF
          rw [hid]
          cases hpa : inv.paid_at with
          | none => simp
          | some t => simp [hpa]

/-- One delivery whose account resolves: the paid-event count grows by at
most one, and when it grows the linked invoice has become paid. -/
theorem handle_count (crypto : Crypto) (oracle : PaymentsOracle) (now : Nat)
    (pk sig body : Nat) (cb : PaymentsCallback) (s : Db) (aid : AccountId)
    (hres : resolveAccountId cb s = Except.ok aid) :
    invoicePaidCount s ≤
      invoicePaidCount (handleInboundTx crypto oracle now pk sig body cb s).2 ∧
    invoicePaidCount (handleInboundTx crypto oracle now pk sig body cb s).2 ≤
      invoicePaidCount s + 1 ∧
    (invoicePaidCount (handleInboundTx crypto oracle now pk sig body cb s).2 ≠
        invoicePaidCount s →
      ∃ inv2, invoicesGetByAccountId
          (handleInboundTx crypto oracle now pk sig body cb s).2 aid = some inv2 ∧
        inv2.paid_at.isSome = true) := by
  rcases inboundPhase1_cases crypto pk sig body cb s with ⟨e, hp⟩ |
    ⟨aid2, amt, inv, hres2, hamt, hlink, hbr⟩
  · rw [handle_state_err crypto oracle now pk sig body cb s e s hp]
    exact ⟨le_refl _, Nat.le_succ _, fun hne => absurd rfl hne⟩
  · have heq : aid2 = aid := Except.ok.inj (hres2.symm.trans hres)
    subst heq
    rcases hbr with ⟨hnmem, hp⟩ | ⟨hmem, hp⟩
    · rw [handle_state_ok crypto oracle now pk sig body cb s _ _ hp]
      have hlink1 : invoicesGetByAccountId
          { s with
            invoices := s.invoices.map (incSetF inv.id amt)
            applied_txs := (aid2, cb.transaction_id) :: s.applied_txs } aid2 =
          some { inv with amount_captured := inv.amount_captured + amt } := by
        rw [getByAccountId_map_state (incSetF inv.id amt) rfl
          (fun i => by unfold incSetF; split <;> rfl) aid2, hlink]
        simp [incSetF]
      exact inboundPhase2_count oracle now _ _ aid2 hlink1
    · rw [handle_state_ok crypto oracle now pk sig body cb s _ _ hp]
      exact inboundPhase2_count oracle now inv s aid2 hlink

/-- C1: delivering the same inbound crypto transaction N ≥ 1 times leaves
every invoice's amount_captured exactly as after one delivery, enqueues at
most one InvoicePaid event over the whole sequence, and a duplicate delivery
makes increase_amount_captured fail with the AlreadyApplied constraint error
(after which the current invoice row is fetched and processing continues,
per the definition of increaseOrFetch). -/
theorem c1_idempotent_capture (crypto : Crypto) (oracle : PaymentsOracle)
    (now pk sig body : Nat) (cb : PaymentsCallback) (s0 : Db) (N : Nat) (hN : 1 ≤ N) :
    amountsMap ((inboundStep crypto oracle now pk sig body cb)^[N] s0) =
      amountsMap (inboundStep crypto oracle now pk sig body cb s0) ∧
    invoicePaidCount ((inboundStep crypto oracle now pk sig body cb)^[N] s0) ≤
      invoicePaidCount s0 + 1 ∧
    (∀ (aid : AccountId) (amt : Amount) (s : Db),
      (aid, cb.transaction_id) ∈ s.applied_txs →
      increaseAmountCaptured aid cb.transaction_id amt s =
        (Except.error ErrorKind.constraints, s)) := by
  obtain ⟨k, rfl⟩ : ∃ k, N = k + 1 := ⟨N - 1, (Nat.succ_pred_eq_of_pos hN).symm⟩
  have hdup : ∀ (aid : AccountId) (amt : Amount) (s : Db),
      (aid, cb.transaction_id) ∈ s.applied_txs →
      increaseAmountCaptured aid cb.transaction_id amt s =
        (Except.error ErrorKind.constraints, s) := by
    intro aid amt s hmem
    unfold increaseAmountCaptured
    rw [if_pos hmem]
  set g := inboundStep crypto oracle now pk sig body cb with hg
  by_cases hv : crypto.verify pk sig body = true
  case neg =>
    have hfv : crypto.verify pk sig body = false := by
      cases hcv : crypto.verify pk sig body
      · rfl
      · exact absurd hcv hv
    have hfix : g s0 = s0 := by
      show (handleInboundTx crypto oracle now pk sig body cb s0).2 = s0
      rw [handle_verify_false crypto oracle now pk sig body cb s0 hfv]
    rw [Function.iterate_fixed hfix (k + 1), hfix]
    exact ⟨rfl, Nat.le_succ _, hdup⟩
  case pos =>
  cases hres0 : resolveAccountId cb s0 with
  | error e =>
    have hfix : g s0 = s0 :=
      handle_noop crypto oracle now pk sig body cb s0 (Or.inl ⟨e, hres0⟩)
    rw [Function.iterate_fixed hfix (k + 1), hfix]
    exact ⟨rfl, Nat.le_succ _, hdup⟩
  | ok aid =>
    cases hamt0 : cb.amount_captured with
    | none =>
      have hfix : g s0 = s0 :=
        handle_noop crypto oracle now pk sig body cb s0 (Or.inr (Or.inl hamt0))
      rw [Function.iterate_fixed hfix (k + 1), hfix]
      exact ⟨rfl, Nat.le_succ _, hdup⟩
    | some amt =>
      cases hlink0 : invoicesGetByAccountId s0 aid with
      | none =>
        have hfix : g s0 = s0 :=
          handle_noop crypto oracle now pk sig body cb s0
            (Or.inr (Or.inr ⟨aid, hres0, hlink0⟩))
        rw [Function.iterate_fixed hfix (k + 1), hfix]
        exact ⟨rfl, Nat.le_succ _, hdup⟩
      | some inv =>
        have main : ∀ m,
            (g^[m] (g s0)).accounts = s0.accounts ∧
            (aid, cb.transaction_id) ∈ (g^[m] (g s0)).applied_txs ∧
            amountsMap (g^[m] (g s0)) = amountsMap (g s0) ∧
            invoicePaidCount s0 ≤ invoicePaidCount (g^[m] (g s0)) ∧
            invoicePaidCount (g^[m] (g s0)) ≤ invoicePaidCount s0 + 1 ∧
            (invoicePaidCount (g^[m] (g s0)) ≠ invoicePaidCount s0 →
              ∃ inv2, invoicesGetByAccountId (g^[m] (g s0)) aid = some inv2 ∧
                inv2.paid_at.isSome = true) := by
          intro m
          induction m with
          | zero =>
            rw [Function.iterate_zero_apply]
            have hc := handle_count crypto oracle now pk sig body cb s0 aid hres0
            exact ⟨handle_accounts crypto oracle now pk sig body cb s0,
              handle_pair_after crypto oracle now pk sig body cb s0 aid amt inv
                hv hres0 hamt0 hlink0,
              rfl, hc.1, hc.2.1, hc.2.2⟩
          | succ m ih =>
            obtain ⟨hacc, hpair, hamts, hge, hle, hlinked⟩ := ih
            rw [Function.iterate_succ_apply']
            have hres_m : resolveAccountId cb (g^[m] (g s0)) = Except.ok aid :=
              (resolveAccountId_congr cb hacc).trans hres0
            refine ⟨?_, ?_, ?_, ?_, ?_, ?_⟩
            · exact (handle_accounts crypto oracle now pk sig body cb _).trans hacc
            · exact handle_applied_mono crypto oracle now pk sig body cb _ _ hpair
            · exact (handle_amounts_applied crypto oracle now pk sig body cb _ aid
                hres_m hpair).trans hamts
            · by_cases hne : invoicePaidCount (g^[m] (g s0)) ≠ invoicePaidCount s0
              · obtain ⟨inv2, hl2, hp2⟩ := hlinked hne
                have hev := handle_events_linked_paid crypto oracle now pk sig body cb _
                  aid inv2 hres_m hl2 hp2
                have hcc : invoicePaidCount (g (g^[m] (g s0))) =
                    invoicePaidCount (g^[m] (g s0)) := invoicePaidCount_congr hev.1
                rw [hcc]
                exact hge
              · have heq : invoicePaidCount (g^[m] (g s0)) = invoicePaidCount s0 :=
                  not_ne_iff.mp hne
                have hc := handle_count crypto oracle now pk sig body cb _ aid hres_m
                calc invoicePaidCount s0 = invoicePaidCount (g^[m] (g s0)) := heq.symm
                  _ ≤ _ := hc.1
            · by_cases hne : invoicePaidCount (g^[m] (g s0)) ≠ invoicePaidCount s0
              · obtain ⟨inv2, hl2, hp2⟩ := hlinked hne
                have hev := handle_events_linked_paid crypto oracle now pk sig body cb _
                  aid inv2 hres_m hl2 hp2
                have hcc : invoicePaidCount (g (g^[m] (g s0))) =
                    invoicePaidCount (g^[m] (g s0)) := invoicePaidCount_congr hev.1
                rw [hcc]
                exact hle
              · have heq : invoicePaidCount (g^[m] (g s0)) = invoicePaidCount s0 :=
                  not_ne_iff.mp hne
                have hc := handle_count crypto oracle now pk sig body cb _ aid hres_m
                calc invoicePaidCount (g (g^[m] (g s0))) ≤
                    invoicePaidCount (g^[m] (g s0)) + 1 := hc.2.1
                  _ = invoicePaidCount s0 + 1 := by rw [heq]
            · intro hne2
              by_cases hne : invoicePaidCount (g^[m] (g s0)) ≠ invoicePaidCount s0
              · obtain ⟨inv2, hl2, hp2⟩ := hlinked hne
                have hev := handle_events_linked_paid crypto oracle now pk sig body cb _
                  aid inv2 hres_m hl2 hp2
                exact hev.2
              · have heq : invoicePaidCount (g^[m] (g s0)) = invoicePaidCount s0 :=
                  not_ne_iff.mp hne
                have hc := handle_count crypto oracle now pk sig body cb _ aid hres_m
                apply hc.2.2
                intro hcontra
                exact hne2 (hcontra.trans heq)
        rw [Function.iterate_succ_apply]
        obtain ⟨hacc, hpair, hamts, hge, hle, hlinked⟩ := main k
        exact ⟨hamts, hle, hdup⟩

/-- Witness for C1: two deliveries of the 300-wei webhook against the fully
captured invoice leave the captured amounts exactly as after one delivery and
mark at most one invoice paid. -/
theorem c1_idempotent_capture_witness :
    1 ≤ 2 ∧
    amountsMap ((inboundStep cryptoOkW oracleW 99 0 0 0 cbW)^[2] dbUnpaidW) =
      amountsMap (inboundStep cryptoOkW oracleW 99 0 0 0 cbW dbUnpaidW) ∧
    invoicePaidCount ((inboundStep cryptoOkW oracleW 99 0 0 0 cbW)^[2] dbUnpaidW) ≤
      invoicePaidCount dbUnpaidW + 1 :=
  ⟨by decide,
    (c1_idempotent_capture cryptoOkW oracleW 99 0 0 0 cbW dbUnpaidW 2 (by decide)).1,
    (c1_idempotent_capture cryptoOkW oracleW 99 0 0 0 cbW dbUnpaidW 2 (by decide)).2.1⟩

end Billing
